import Mathlib

/-!
A shallow embedding of the WebSocket relay server in `src/server/index.js`
(the `dm-tool` player-sharing backend), together with theorems settling the
specification claims about it.

The server keeps an in-memory map from normalized session codes to sessions
(`sessions`), attaches `clientInfo` role bindings to sockets, and relays
opaque payloads between one DM (host) socket and many player (participant)
sockets.  We model sockets by numeric identifiers, the mutable server state
as an explicit `Srv` structure, and every outbound effect (sends, closes,
terminations, pings) as an `Event` in a trace list.
-/

namespace DmTool

/-- A JavaScript value, as far as the relay inspects one: the server only
ever checks `typeof`, truthiness and string contents of the fields it reads
(`code`, `payload`, `playerId`); object payloads are opaque, so an object is
represented by an opaque numeric tag. -/
inductive JVal where
  | vUndef : JVal
  | vNull : JVal
  | vStr (s : String) : JVal
  | vNum (n : Int) : JVal
  | vBool (b : Bool) : JVal
  | vObj (tag : Nat) : JVal
deriving DecidableEq, Repr

/-- `typeof v === 'object'` — true for plain objects AND for `null`
(the classic JavaScript quirk). -/
def JVal.typeofObject : JVal → Bool
  | .vNull => true
  | .vObj _ => true
  | _ => false

/-- JavaScript truthiness of a value. -/
def JVal.truthy : JVal → Bool
  | .vUndef => false
  | .vNull => false
  | .vStr s => decide (s ≠ "")
  | .vNum n => decide (n ≠ 0)
  | .vBool b => b
  | .vObj _ => true

/-- `typeof v === 'string' && v` — the guard `relayFromDm` uses on
`message.playerId`. -/
def JVal.isNonEmptyStr : JVal → Bool
  | .vStr s => decide (s ≠ "")
  | _ => false

/-- `String.prototype.toUpperCase` on one character, on the ASCII range the
session codes live in. -/
def jsUpChar (c : Char) : Char :=
  if 97 ≤ c.toNat ∧ c.toNat ≤ 122 then Char.ofNat (c.toNat - 32) else c

/-- `String.prototype.trim`: drop leading and trailing whitespace. -/
def jsTrimChars (l : List Char) : List Char :=
  ((l.dropWhile Char.isWhitespace).reverse.dropWhile Char.isWhitespace).reverse

/-- `normalizeCode` from the source: non-strings normalize to the empty
string; strings are trimmed and uppercased
(`value.trim().toUpperCase()`). -/
def normalizeCode : JVal → String
  | .vStr s => String.mk ((jsTrimChars s.data).map jsUpChar)
  | _ => ""

/-- The `clientInfo` record the server attaches to a socket:
`{ role: 'dm', code }` or `{ role: 'player', code, playerId }`. -/
inductive CInfo where
  | dmInfo (code : String) : CInfo
  | playerInfo (code : String) (playerId : String) : CInfo
deriving DecidableEq, Repr

/-- `socket.clientInfo?.role === 'dm'`. -/
def isDmRole : Option CInfo → Bool
  | some (.dmInfo _) => true
  | _ => false

/-- The per-socket state the server reads or writes: `readyState === OPEN`
(as a Boolean), `clientInfo`, and the heartbeat `isAlive` flag. -/
structure Sock where
  readyOpen : Bool
  clientInfo : Option CInfo
  isAlive : Bool
deriving DecidableEq, Repr

/-- A session record `{ code, dm, players }`; `players` is kept as an
association list from playerId to socket id, mirroring the insertion-ordered
JavaScript `Map`. -/
structure Session where
  code : String
  dm : Nat
  players : List (String × Nat)
deriving DecidableEq, Repr

/-- The whole mutable server state: the `sessions` map (association list
keyed by normalized code), the registry of known sockets, and the
monotonically increasing `clientCounter`. -/
structure Srv where
  sessions : List (String × Session)
  sockets : List (Nat × Sock)
  clientCounter : Nat
deriving DecidableEq, Repr

/-- Association-list lookup (models `Map.get`). -/
def alookup {α β : Type} [DecidableEq α] (k : α) : List (α × β) → Option β
  | [] => none
  | p :: rest => if p.1 = k then some p.2 else alookup k rest

/-- Association-list insert-or-replace (models `Map.set`): replaces the
first entry with the key in place, otherwise appends. -/
def mapSet {α β : Type} [DecidableEq α] (l : List (α × β)) (k : α) (v : β) :
    List (α × β) :=
  match l with
  | [] => [(k, v)]
  | p :: rest => if p.1 = k then (k, v) :: rest else p :: mapSet rest k v

/-- Association-list delete (models `Map.delete`). -/
def mapDelete {α β : Type} [DecidableEq α] (l : List (α × β)) (k : α) :
    List (α × β) :=
  l.filter (fun p => decide (p.1 ≠ k))

/-- The messages the server ever sends, by shape. -/
inductive OutMsg where
  | sessionError (message : String) : OutMsg
  | sessionCreated (code : String) : OutMsg
  | sessionJoined (code : String) (playerId : String) : OutMsg
  | playerJoined (playerId : String) : OutMsg
  | playerLeft (playerId : String) : OutMsg
  | relayToDm (playerId : String) (payload : JVal) : OutMsg
  | relayToPlayer (payload : JVal) : OutMsg
  | sessionClosed (message : Option String) : OutMsg
deriving DecidableEq, Repr

/-- Observable effects: a successful `safeSend`, a `socket.close()` call, a
`socket.terminate()` call, a `socket.ping()` attempt. -/
inductive Event where
  | send (sid : Nat) (m : OutMsg) : Event
  | closeSock (sid : Nat) : Event
  | terminate (sid : Nat) : Event
  | ping (sid : Nat) : Event
deriving DecidableEq, Repr

def getSock (s : Srv) (sid : Nat) : Option Sock := alookup sid s.sockets

def updSock (s : Srv) (sid : Nat) (f : Sock → Sock) : Srv :=
  { s with sockets := s.sockets.map (fun p => if p.1 = sid then (p.1, f p.2) else p) }

/-- `socket.readyState === WebSocket.OPEN` (a missing socket counts as not
open, matching `safeSend`'s `!socket` guard). -/
def sockOpen (s : Srv) (sid : Nat) : Bool :=
  match getSock s sid with
  | some k => k.readyOpen
  | none => false

def getInfo (s : Srv) (sid : Nat) : Option CInfo :=
  match getSock s sid with
  | some k => k.clientInfo
  | none => none

def setInfo (s : Srv) (sid : Nat) (i : Option CInfo) : Srv :=
  updSock s sid (fun k => { k with clientInfo := i })

def sockAlive (s : Srv) (sid : Nat) : Bool :=
  match getSock s sid with
  | some k => k.isAlive
  | none => false

/-- `safeSend`: delivers (records a send event) exactly when the socket is
open; otherwise reports failure without an event. -/
def safeSend (s : Srv) (sid : Nat) (m : OutMsg) : Bool × List Event :=
  if sockOpen s sid then (true, [Event.send sid m]) else (false, [])

/-- `socket.close()`: records the call and moves `readyState` out of OPEN
(`CLOSING` happens synchronously in the `ws` library). -/
def doClose (s : Srv) (sid : Nat) : Srv × List Event :=
  (updSock s sid (fun k => { k with readyOpen := false }), [Event.closeSock sid])

/-- `socket.terminate()`. -/
def doTerminate (s : Srv) (sid : Nat) : Srv × List Event :=
  (updSock s sid (fun k => { k with readyOpen := false }), [Event.terminate sid])

/-! ### Participant-id generation (`createClientId`)

`createClientId` returns `c-<Date.now() in base 36>-<counter in base 36>`.
We model `Date.now()` as an arbitrary `Nat` input and implement base-36
rendering with fuel so it reduces in the kernel. -/

/-- One base-36 digit, lowercase, as `Number.prototype.toString(36)`
produces: `0`–`9` then `a`–`z`. -/
def b36char (n : Nat) : Char :=
  if n < 10 then Char.ofNat (48 + n) else Char.ofNat (87 + n)

/-- Fueled base-36 rendering (most significant digit first). -/
def toB36Aux : Nat → Nat → List Char
  | 0, _ => []
  | fuel + 1, n => if n < 36 then [b36char n] else toB36Aux fuel (n / 36) ++ [b36char (n % 36)]

/-- Base-36 rendering of a natural number, as `n.toString(36)`. -/
def toB36 (n : Nat) : List Char := toB36Aux (n + 1) n

/-- Value of a base-36 digit character, if it is one. -/
def b36val (c : Char) : Option Nat :=
  if 48 ≤ c.toNat ∧ c.toNat ≤ 57 then some (c.toNat - 48)
  else if 97 ≤ c.toNat ∧ c.toNat ≤ 122 then some (c.toNat - 87)
  else none

/-- Parse a base-36 digit string (most significant first) with an
accumulator. -/
def parseB36 : List Char → Nat → Option Nat
  | [], acc => some acc
  | c :: rest, acc =>
    match b36val c with
    | some v => parseB36 rest (acc * 36 + v)
    | none => none

/-- The characters of `createClientId`: `c-<now base36>-<counter base36>`. -/
def clientIdChars (now counter : Nat) : List Char :=
  'c' :: '-' :: toB36 now ++ '-' :: toB36 counter

/-- `createClientId`, with `Date.now()` made explicit.  The source
increments `clientCounter` first and then renders it, so the id carries the
incremented counter. -/
def createClientId (now counter : Nat) : String :=
  String.mk (clientIdChars now counter)

/-- The segment of a character list after its last `'-'` (the whole list if
there is none). -/
def lastSeg (l : List Char) : List Char :=
  ((l.reverse.takeWhile (fun c => decide (c ≠ '-'))).reverse)

/-- Recover the counter component of a client id: parse the segment after
the last dash as base 36. -/
def idTag (p : String) : Option Nat :=
  parseB36 (lastSeg p.data) 0

/-! ### Session teardown (`endSession`, `detachClient`) -/

/-- The per-player body of `endSession`'s `forEach`: send `session-closed`
with the reason, call `close()`, null out `clientInfo`.  Written as explicit
recursion over the (snapshot) player list, threading the server state, so
that a player socket closed by an earlier iteration is seen as closed by a
later one. -/
def endLoop (st : Srv) (players : List (String × Nat)) (reason : String) :
    Srv × List Event :=
  match players with
  | [] => (st, [])
  | p :: rest =>
    let e1 := (safeSend st p.2 (OutMsg.sessionClosed (some reason))).2
    let r2 := doClose st p.2
    let st3 := setInfo r2.1 p.2 none
    let r4 := endLoop st3 rest reason
    (r4.1, e1 ++ r2.2 ++ r4.2)

/-- `endSession`: remove the session from the table, then notify, close and
unbind every player.  (`session.players.clear()` mutates only the detached
session object and has no further observable effect.) -/
def endSession (s : Srv) (sess : Session) (reason : String) : Srv × List Event :=
  endLoop { s with sessions := mapDelete s.sessions sess.code } sess.players reason

/-- The role-dependent part of `detachClient`: remove the session (if a DM
still registered as such) or the player entry (if a player still registered
under its id), with the corresponding notifications. -/
def detachBody (s : Srv) (sid : Nat) (reason : Option String) (info : CInfo) :
    Srv × List Event :=
  match info with
  | CInfo.dmInfo code =>
    match alookup code s.sessions with
    | some sess =>
      if sess.dm = sid then
        endSession s sess (reason.getD "The DM disconnected.")
      else (s, [])
    | none => (s, [])
  | CInfo.playerInfo code pid =>
    match alookup code s.sessions with
    | some sess =>
      if alookup pid sess.players = some sid then
        let sess2 : Session := { sess with players := mapDelete sess.players pid }
        let s2 : Srv := { s with sessions := mapSet s.sessions code sess2 }
        if sockOpen s2 sess.dm then
          (s2, (safeSend s2 sess.dm (OutMsg.playerLeft pid)).2)
        else (s2, [])
      else (s, [])
    | none => (s, [])

/-- The tail of `detachClient`: null out `clientInfo` and, unless silent,
close the socket if it is still open. -/
def detachFinish (r1 : Srv × List Event) (sid : Nat) (silent : Bool) :
    Srv × List Event :=
  let s3 := setInfo r1.1 sid none
  if silent = false ∧ sockOpen s3 sid = true then
    let r4 := doClose s3 sid
    (r4.1, r1.2 ++ r4.2)
  else (s3, r1.2)

/-- `detachClient(socket, { reason, silent })`. -/
def detachClient (s : Srv) (sid : Nat) (reason : Option String) (silent : Bool) :
    Srv × List Event :=
  match getInfo s sid with
  | none => (s, [])
  | some info => detachFinish (detachBody s sid reason info) sid silent

/-! ### Message handlers -/

/-- `handleCreateSession`. -/
def handleCreateSession (s : Srv) (sid : Nat) (codeVal : JVal) : Srv × List Event :=
  let code := normalizeCode codeVal
  if code = "" then
    (s, (safeSend s sid (OutMsg.sessionError
      "Invalid session code. Refresh the page and try again.")).2)
  else if isDmRole (getInfo s sid) then
    (s, (safeSend s sid (OutMsg.sessionError "You are already hosting a session.")).2)
  else if (alookup code s.sessions).isSome then
    (s, (safeSend s sid (OutMsg.sessionError "A session with that code already exists.")).2)
  else
    let sess : Session := { code := code, dm := sid, players := [] }
    let s1 := { s with sessions := mapSet s.sessions code sess }
    let s2 := setInfo s1 sid (some (CInfo.dmInfo code))
    (s2, (safeSend s2 sid (OutMsg.sessionCreated code)).2)

/-- `handleJoinSession`.  The source captures the session object before the
(possible) silent detach of the joiner's prior binding; the detach can
mutate that object (remove a player entry) or even delete it from the table
(when the joiner was the very session's DM, `endSession` runs).  We model
the object capture by re-looking the code up after the detach: if still
present it is the same — possibly mutated — object and the table reflects
the `players.set`; if absent, `players.set` mutates only a ghost object and
the table is unchanged, while the notifications still use the captured
object's `dm` field. -/
def handleJoinSession (s : Srv) (sid : Nat) (codeVal : JVal) (now : Nat) :
    Srv × List Event :=
  let code := normalizeCode codeVal
  if code = "" then
    (s, (safeSend s sid (OutMsg.sessionError "Enter a valid session code from your DM.")).2)
  else
    match alookup code s.sessions with
    | none =>
      (s, (safeSend s sid (OutMsg.sessionError
        "Session not found. Ask your DM for a new code.")).2)
    | some sess =>
      if sockOpen s sess.dm = false then
        (s, (safeSend s sid (OutMsg.sessionError
          "Session not found. Ask your DM for a new code.")).2)
      else
        let r1 : Srv × List Event :=
          if (getInfo s sid).isSome then detachClient s sid none true else (s, [])
        let sMid := r1.1
        let counter := sMid.clientCounter + 1
        let pid := createClientId now counter
        let sTab : Srv :=
          match alookup code sMid.sessions with
          | some sess2 => { sMid with
              sessions := mapSet sMid.sessions code
                { sess2 with players := mapSet sess2.players pid sid },
              clientCounter := counter }
          | none => { sMid with clientCounter := counter }
        let s2 := setInfo sTab sid (some (CInfo.playerInfo code pid))
        let e1 := (safeSend s2 sid (OutMsg.sessionJoined code pid)).2
        let e2 := (safeSend s2 sess.dm (OutMsg.playerJoined pid)).2
        (s2, r1.2 ++ e1 ++ e2)

/-- `relayFromPlayer`. -/
def relayFromPlayer (s : Srv) (sid : Nat) (payload : JVal) : Srv × List Event :=
  match getInfo s sid with
  | some (CInfo.playerInfo code pid) =>
    let hostGone : Srv × List Event :=
      let e1 := (safeSend s sid (OutMsg.sessionClosed none)).2
      let r2 := detachClient s sid (some "Session unavailable.") false
      (r2.1, e1 ++ r2.2)
    match alookup code s.sessions with
    | none => hostGone
    | some sess =>
      if sockOpen s sess.dm = false then hostGone
      else if payload.typeofObject = false then (s, [])
      else (s, (safeSend s sess.dm (OutMsg.relayToDm pid payload)).2)
  | _ => (s, [])

/-- The broadcast arm of `relayFromDm`: `session.players.forEach(safeSend)`.
No state is mutated, so every send sees the same server state. -/
def relayLoop (s : Srv) (players : List (String × Nat)) (payload : JVal) :
    List Event :=
  match players with
  | [] => []
  | p :: rest => (safeSend s p.2 (OutMsg.relayToPlayer payload)).2 ++ relayLoop s rest payload

/-- `relayFromDm`. -/
def relayFromDm (s : Srv) (sid : Nat) (payload : JVal) (playerIdV : JVal) :
    Srv × List Event :=
  match getInfo s sid with
  | some (CInfo.dmInfo code) =>
    match alookup code s.sessions with
    | none => (s, [])
    | some sess =>
      if (payload.truthy && payload.typeofObject) = false then (s, [])
      else if playerIdV.isNonEmptyStr then
        match playerIdV with
        | JVal.vStr pid =>
          match alookup pid sess.players with
          | some target => (s, (safeSend s target (OutMsg.relayToPlayer payload)).2)
          | none => (s, [])
        | _ => (s, [])
      else (s, relayLoop s sess.players payload)
  | _ => (s, [])

/-- `handleCloseSession`. -/
def handleCloseSession (s : Srv) (sid : Nat) : Srv × List Event :=
  match getInfo s sid with
  | some (CInfo.dmInfo code) =>
    match alookup code s.sessions with
    | some sess =>
      if sess.dm = sid then
        let r1 := endSession s sess "The DM closed the session."
        (setInfo r1.1 sid none, r1.2)
      else (s, [])
    | none => (s, [])
  | _ => (s, [])

/-! ### Router, heartbeat, and the reachable-state transition system -/

/-- An inbound frame after JSON decoding, by recognized shape; `other`
covers unrecognized or missing `type` tags (ignored by the `default` arm). -/
inductive ClientMsg where
  | createSession (code : JVal) : ClientMsg
  | joinSession (code : JVal) : ClientMsg
  | relay (payload : JVal) (playerId : JVal) : ClientMsg
  | closeSession : ClientMsg
  | other : ClientMsg
deriving DecidableEq, Repr

/-- The `switch (message.type)` dispatch in the `message` listener. -/
def handleMessage (s : Srv) (sid : Nat) (now : Nat) (m : ClientMsg) :
    Srv × List Event :=
  match m with
  | ClientMsg.createSession cv => handleCreateSession s sid cv
  | ClientMsg.joinSession cv => handleJoinSession s sid cv now
  | ClientMsg.relay payload pidV =>
    if isDmRole (getInfo s sid) then relayFromDm s sid payload pidV
    else relayFromPlayer s sid payload
  | ClientMsg.closeSession => handleCloseSession s sid
  | ClientMsg.other => (s, [])

/-- One socket's turn in the heartbeat `forEach`: a socket whose `isAlive`
flag is (currently) false is detached silently with reason
`'Connection timed out.'` and terminated; otherwise its flag is cleared and
it is pinged. -/
def tickOne (acc : Srv × List Event) (sid : Nat) : Srv × List Event :=
  let st := acc.1
  match getSock st sid with
  | none => acc
  | some k =>
    if k.isAlive = false then
      let r1 := detachClient st sid (some "Connection timed out.") true
      let r2 := doTerminate r1.1 sid
      (r2.1, acc.2 ++ r1.2 ++ r2.2)
    else
      (updSock st sid (fun j => { j with isAlive := false }), acc.2 ++ [Event.ping sid])

/-- The heartbeat interval body, folded over a snapshot of the client set. -/
def tickLoop (acc : Srv × List Event) (sids : List Nat) : Srv × List Event :=
  match sids with
  | [] => acc
  | sid :: rest => tickLoop (tickOne acc sid) rest

def heartbeatTick (s : Srv) : Srv × List Event :=
  tickLoop (s, []) (s.sockets.map Prod.fst)

/-- External inputs driving the server: a new connection, an inbound frame
(with the `Date.now()` reading at processing time), a pong, the transport
observing the socket leave the OPEN state, the queued `close` event handler
firing, and a heartbeat tick.  Splitting the raw close from its handler
models the event-loop asynchrony of the `ws` library. -/
inductive Input where
  | connect (sid : Nat) : Input
  | msg (sid : Nat) (now : Nat) (m : ClientMsg) : Input
  | pong (sid : Nat) : Input
  | rawClose (sid : Nat) : Input
  | closeEvt (sid : Nat) : Input
  | tick : Input
deriving DecidableEq, Repr

def stepInput (s : Srv) (i : Input) : Srv × List Event :=
  match i with
  | Input.connect sid =>
    if (getSock s sid).isSome then (s, [])
    else ({ s with sockets :=
      s.sockets ++ [(sid, { readyOpen := true, clientInfo := none, isAlive := true })] }, [])
  | Input.msg sid now m =>
    if (getSock s sid).isSome then handleMessage s sid now m else (s, [])
  | Input.pong sid => (updSock s sid (fun k => { k with isAlive := true }), [])
  | Input.rawClose sid => (updSock s sid (fun k => { k with readyOpen := false }), [])
  | Input.closeEvt sid =>
    detachClient (updSock s sid (fun k => { k with readyOpen := false })) sid none true
  | Input.tick => heartbeatTick s

def initSrv : Srv := { sessions := [], sockets := [], clientCounter := 0 }

/-- The reachable server states: the empty start state closed under input
steps. -/
inductive Reach : Srv → Prop where
  | init : Reach initSrv
  | step (s : Srv) (i : Input) : Reach s → Reach (stepInput s i).1

/-! ### Derived notions used by the claims -/

/-- All participant ids currently registered, across every session. -/
def sessionsIds : List (String × Session) → List String
  | [] => []
  | pr :: rest => pr.2.players.map Prod.fst ++ sessionsIds rest

def allPlayerIds (s : Srv) : List String := sessionsIds s.sessions

/-- Two ids whose recovered counter components differ (in particular the
ids themselves differ). -/
def TagNe (a b : String) : Prop := idTag a ≠ idTag b

/-- The id-freshness invariant: all live participant ids carry pairwise
distinct counter components, each bounded by the current `clientCounter`. -/
def IdInv (s : Srv) : Prop :=
  List.Pairwise TagNe (allPlayerIds s) ∧
    ∀ p ∈ allPlayerIds s, ∃ c, idTag p = some c ∧ c ≤ s.clientCounter

/-- A `payload` that is a structured object (an actual object — not `null`,
not absent, not a primitive). -/
def structuredObj : JVal → Bool
  | JVal.vObj _ => true
  | _ => false

/-- Events of one `endSession` player pass, in order: a `session-closed`
notice then a close, per player. -/
def endLoopEvents : List (String × Nat) → String → List Event
  | [], _ => []
  | p :: rest, r =>
    Event.send p.2 (OutMsg.sessionClosed (some r)) :: Event.closeSock p.2 ::
      endLoopEvents rest r

/-! ### Concrete reachable states used by counterexamples and witnesses

Trace A: socket 0 connects and creates a session with raw code `" abc "`
(normalized `"ABC"`); socket 1 connects and joins, becoming player
`c-7-1`. -/

def trA1 : Srv := (stepInput initSrv (Input.connect 0)).1

def trA2 : Srv := (stepInput trA1 (Input.msg 0 5 (ClientMsg.createSession (JVal.vStr " abc ")))).1

/-- Two connected, unbound sockets and an empty session table. -/
def trC1 : Srv := (stepInput trA1 (Input.connect 1)).1

def trA3 : Srv := (stepInput trA2 (Input.connect 1)).1

def trA4 : Srv := (stepInput trA3 (Input.msg 1 7 (ClientMsg.joinSession (JVal.vStr "Abc")))).1

/-- Trace A continued: the host's transport drops (its `close` handler has
not yet run), leaving a registered session whose host is dead. -/
def trA5 : Srv := (stepInput trA4 (Input.rawClose 0)).1

/-- Trace B (the participant-create quirk): from `trA4`, the bound player
(socket 1) sends `create-session "DEF"` — the source only rejects creates
from sockets whose role is `'dm'`, so this succeeds and rebinds socket 1 as
DM of `DEF` while its stale player entry remains in `ABC`. -/
def trB5 : Srv := (stepInput trA4 (Input.msg 1 9 (ClientMsg.createSession (JVal.vStr "DEF")))).1

/-- Trace B continued: socket 0 closes `ABC`; `endSession` iterates the
stale player entry, closing socket 1 and nulling its binding — even though
socket 1 is the registered host of `DEF`, which stays in the table. -/
def trB6 : Srv := (stepInput trB5 (Input.msg 0 11 ClientMsg.closeSession)).1

/-- Trace E: from `trA4` a heartbeat tick clears every liveness flag and
pings; then socket 0 (the host) acknowledges with a pong.  At the next tick
the player (socket 1) is the dead connection. -/
def trE1 : Srv := (stepInput trA4 Input.tick).1

def trE2 : Srv := (stepInput trE1 (Input.pong 0)).1

/-- Trace E variant: instead the player acknowledges, leaving the host
(socket 0) as the dead connection at the next tick. -/
def trE3 : Srv := (stepInput trE1 (Input.pong 1)).1

/-! Trace F (heartbeat meets a stale entry): socket 0 hosts session `P`;
socket 1 joins `P` (id `c-5-1`), then creates session `X` through the
participant-create corner case — leaving its stale entry in `P` — and then
joins session `C` hosted by socket 2 (id `c-b-2`).  A tick clears every
liveness flag and only socket 2 acknowledges, so sockets 0 and 1 are both
dead at the next tick.  That tick processes socket 0 first: ending `P`
iterates the stale entry, closing socket 1 and nulling its binding, so
socket 1's own turn finds nothing to detach and its live entry in `C`
survives the tick. -/

def trF1 : Srv := (stepInput initSrv (Input.connect 0)).1

def trF2 : Srv := (stepInput trF1 (Input.msg 0 3 (ClientMsg.createSession (JVal.vStr "P")))).1

def trF3 : Srv := (stepInput trF2 (Input.connect 1)).1

def trF4 : Srv := (stepInput trF3 (Input.msg 1 5 (ClientMsg.joinSession (JVal.vStr "P")))).1

def trF5 : Srv := (stepInput trF4 (Input.msg 1 7 (ClientMsg.createSession (JVal.vStr "X")))).1

def trF6 : Srv := (stepInput trF5 (Input.connect 2)).1

def trF7 : Srv := (stepInput trF6 (Input.msg 2 9 (ClientMsg.createSession (JVal.vStr "C")))).1

def trF8 : Srv := (stepInput trF7 (Input.msg 1 11 (ClientMsg.joinSession (JVal.vStr "C")))).1

def trF9 : Srv := (stepInput trF8 Input.tick).1

def trF : Srv := (stepInput trF9 (Input.pong 2)).1

/-! ### The claims as stated, for the corrected ones -/

/-- Claim C1 as stated: a participant relaying while its registered host
connection is dead receives a `session-error` notice. -/
def C1Statement : Prop :=
  ∀ (s : Srv) (sid : Nat) (code pid : String) (sess : Session) (payload : JVal),
    Reach s → getInfo s sid = some (CInfo.playerInfo code pid) →
    alookup code s.sessions = some sess → sockOpen s sess.dm = false →
    ∃ msg, Event.send sid (OutMsg.sessionError msg) ∈ (relayFromPlayer s sid payload).2

/-- Claim C2 as stated: a create-session request from any connection whose
role binding is not unbound performs no mutation. -/
def C2Statement : Prop :=
  ∀ (s : Srv) (sid : Nat) (cv : JVal),
    Reach s → (getInfo s sid).isSome →
    (handleCreateSession s sid cv).1 = s ∧
      ∃ msg, (handleCreateSession s sid cv).2 = [Event.send sid (OutMsg.sessionError msg)]

/-- Claim C3 as stated: at every reachable state each registered session's
host connection is still bound to it and open, and a join against a
dead-host code removes the stale entry. -/
def C3Statement : Prop :=
  (∀ s : Srv, Reach s → ∀ pr ∈ s.sessions,
      getInfo s pr.2.dm = some (CInfo.dmInfo pr.1) ∧ sockOpen s pr.2.dm = true) ∧
    ∀ (s : Srv) (sid : Nat) (cv : JVal) (now : Nat) (sess : Session),
      Reach s → alookup (normalizeCode cv) s.sessions = some sess →
      sockOpen s sess.dm = false →
      alookup (normalizeCode cv) (handleJoinSession s sid cv now).1.sessions = none

/-- Claim C9 as stated: any relay message whose payload is not a structured
object is dropped silently — no state change and no events — for hosts and
participants alike. -/
def C9Statement : Prop :=
  ∀ (s : Srv) (sid : Nat) (now : Nat) (payload pidV : JVal),
    Reach s → structuredObj payload = false →
    handleMessage s sid now (ClientMsg.relay payload pidV) = (s, [])

/-- Claim C7 as stated: at a heartbeat tick, every open connection whose
liveness flag is still false is torn down with its participant entry (if
bound and registered as a participant) or its session entry (if bound and
registered as a host) removed. -/
def C7Statement : Prop :=
  ∀ (s : Srv) (sid : Nat) (k : Sock), Reach s →
    getSock s sid = some k → k.isAlive = false → k.readyOpen = true →
    (∀ code pid sess, getInfo s sid = some (CInfo.playerInfo code pid) →
      alookup code s.sessions = some sess → alookup pid sess.players = some sid →
      ∀ sess', alookup code (heartbeatTick s).1.sessions = some sess' →
        alookup pid sess'.players = none) ∧
    ∀ code sess, getInfo s sid = some (CInfo.dmInfo code) →
      alookup code s.sessions = some sess → sess.dm = sid →
      alookup code (heartbeatTick s).1.sessions = none

/-! ### Table-shape predicates used by the heartbeat analysis -/

/-- Every player entry keyed `pid` anywhere in the table is the `(pid, sid)`
entry of session `code` (the id is registered exactly there). -/
def PidUnique (s : Srv) (code pid : String) (sid : Nat) : Prop :=
  ∀ c2 sess2, alookup c2 s.sessions = some sess2 →
    ∀ p ∈ sess2.players, p.1 = pid → c2 = code ∧ p.2 = sid

/-- Every player entry anywhere whose stored socket is `sid` is the
`(pid, sid)` entry of session `code` (socket `sid` has no stale entries). -/
def SidUnique (s : Srv) (code pid : String) (sid : Nat) : Prop :=
  ∀ c2 sess2, alookup c2 s.sessions = some sess2 →
    ∀ p ∈ sess2.players, p.2 = sid → c2 = code ∧ p.1 = pid

/-- Socket `sid` appears in no session's player entries at all. -/
def SidAbsent (s : Srv) (sid : Nat) : Prop :=
  ∀ c2 sess2, alookup c2 s.sessions = some sess2 →
    ∀ p ∈ sess2.players, p.2 ≠ sid

/-- No session holds a player entry keyed `pid`. -/
def PidGone (s : Srv) (pid : String) : Prop :=
  ∀ c2 sess2, alookup c2 s.sessions = some sess2 →
    ∀ p ∈ sess2.players, p.1 ≠ pid

/-- Whatever session is registered under `code` stores `code` in its `code`
field and `dmv` as its host socket. -/
def CodeSess (s : Srv) (code : String) (dmv : Nat) : Prop :=
  ∀ sess', alookup code s.sessions = some sess' →
    sess'.code = code ∧ sess'.dm = dmv

/-- The heartbeat-pass invariant carried while walking the sockets before a
dead participant's turn: the table-shape side conditions, the socket still
dead and registered, no `player-left` notice for its id emitted yet, and its
binding either still intact or already cleared with every `pid` entry
gone. -/
def PPre (code pid : String) (sid dmv : Nat) (acc : Srv × List Event) : Prop :=
  PidUnique acc.1 code pid sid ∧ SidUnique acc.1 code pid sid ∧
    CodeSess acc.1 code dmv ∧
    sockAlive acc.1 sid = false ∧ (getSock acc.1 sid).isSome = true ∧
    acc.2.count (Event.send dmv (OutMsg.playerLeft pid)) = 0 ∧
    (getInfo acc.1 sid = some (CInfo.playerInfo code pid) ∨
      (getInfo acc.1 sid = none ∧ PidGone acc.1 pid))

/-- The invariant after the dead participant's turn: every `pid` entry is
gone, the binding cleared, the channel no longer open, and at most one
`player-left` notice in the trace. -/
def PPost (pid : String) (sid dmv : Nat) (acc : Srv × List Event) : Prop :=
  PidGone acc.1 pid ∧ getInfo acc.1 sid = none ∧ sockOpen acc.1 sid = false ∧
    acc.2.count (Event.send dmv (OutMsg.playerLeft pid)) ≤ 1

/-- The pass invariant before a dead host's turn: its socket appears in no
player entry, it is still dead, registered and bound as the host, and its
session is either already gone or still registered with the expected `code`
and `dm` fields. -/
def HPre (code : String) (sid : Nat) (acc : Srv × List Event) : Prop :=
  SidAbsent acc.1 sid ∧ sockAlive acc.1 sid = false ∧
    (getSock acc.1 sid).isSome = true ∧
    getInfo acc.1 sid = some (CInfo.dmInfo code) ∧
    (alookup code acc.1.sessions = none ∨
      ∃ sessX, alookup code acc.1.sessions = some sessX ∧ sessX.dm = sid ∧
        sessX.code = code)

/-- The pass invariant after a dead host's turn: its session entry is gone,
its binding cleared, and its channel no longer open. -/
def HPost (code : String) (sid : Nat) (acc : Srv × List Event) : Prop :=
  alookup code acc.1.sessions = none ∧ getInfo acc.1 sid = none ∧
    sockOpen acc.1 sid = false

/-! ## Lemmas about participant-id generation -/

theorem b36val_b36char : ∀ d : Nat, d < 36 → b36val (b36char d) = some d := by
  decide

theorem b36char_ne_dash : ∀ d : Nat, d < 36 → b36char d ≠ '-' := by
  decide

theorem toB36Aux_fuel : ∀ (n f1 f2 : Nat), n < f1 → n < f2 →
    toB36Aux f1 n = toB36Aux f2 n := by
  intro n
  induction n using Nat.strong_induction_on with
  | _ n ih =>
    intro f1 f2 h1 h2
    match f1, f2 with
    | g1 + 1, g2 + 1 =>
      by_cases hn : n < 36
      · simp [toB36Aux, hn]
      · have hdiv : n / 36 < n := Nat.div_lt_self (by omega) (by omega)
        have e1 : toB36Aux (g1 + 1) n = toB36Aux g1 (n / 36) ++ [b36char (n % 36)] := by
          simp [toB36Aux, hn]
        have e2 : toB36Aux (g2 + 1) n = toB36Aux g2 (n / 36) ++ [b36char (n % 36)] := by
          simp [toB36Aux, hn]
        rw [e1, e2, ih (n / 36) hdiv g1 g2 (by omega) (by omega)]

theorem toB36_small {n : Nat} (h : n < 36) : toB36 n = [b36char n] := by
  simp [toB36, toB36Aux, h]

theorem toB36_large {n : Nat} (h : 36 ≤ n) :
    toB36 n = toB36 (n / 36) ++ [b36char (n % 36)] := by
  have hdiv : n / 36 < n := Nat.div_lt_self (by omega) (by omega)
  have : toB36Aux (n + 1) n = toB36Aux n (n / 36) ++ [b36char (n % 36)] := by
    simp [toB36Aux, Nat.not_lt.mpr h]
  rw [toB36, this, toB36]
  rw [toB36Aux_fuel (n / 36) n (n / 36 + 1) (by omega) (by omega)]

theorem parseB36_append (l1 l2 : List Char) (acc : Nat) :
    parseB36 (l1 ++ l2) acc =
      match parseB36 l1 acc with
      | some a => parseB36 l2 a
      | none => none := by
  induction l1 generalizing acc with
  | nil => simp [parseB36]
  | cons c rest ih =>
    simp only [List.cons_append, parseB36]
    cases b36val c with
    | none => simp
    | some v => simp [ih]

theorem parseB36_toB36 : ∀ n acc : Nat,
    parseB36 (toB36 n) acc = some (acc * 36 ^ (toB36 n).length + n) := by
  intro n
  induction n using Nat.strong_induction_on with
  | _ n ih =>
    intro acc
    by_cases hn : n < 36
    · rw [toB36_small hn]
      simp [parseB36, b36val_b36char n hn]
    · have h36 : 36 ≤ n := Nat.not_lt.mp hn
      have hdiv : n / 36 < n := Nat.div_lt_self (by omega) (by omega)
      rw [toB36_large h36, parseB36_append, ih (n / 36) hdiv acc]
      have hmod : n % 36 < 36 := Nat.mod_lt _ (by omega)
      simp only [parseB36, b36val_b36char _ hmod]
      have hdm : 36 * (n / 36) + n % 36 = n := Nat.div_add_mod n 36
      have : (acc * 36 ^ (toB36 (n / 36)).length + n / 36) * 36 + n % 36 =
          acc * 36 ^ ((toB36 (n / 36)).length + 1) + n := by
        rw [pow_succ]; ring_nf; omega
      simp [List.length_append, this]

theorem toB36_ne_dash : ∀ n : Nat, ∀ c ∈ toB36 n, c ≠ '-' := by
  intro n
  induction n using Nat.strong_induction_on with
  | _ n ih =>
    intro c hc
    by_cases hn : n < 36
    · rw [toB36_small hn] at hc
      simp at hc
      exact hc ▸ b36char_ne_dash n hn
    · have h36 : 36 ≤ n := Nat.not_lt.mp hn
      rw [toB36_large h36] at hc
      rcases List.mem_append.mp hc with h | h
      · exact ih (n / 36) (Nat.div_lt_self (by omega) (by omega)) c h
      · simp at h
        exact h ▸ b36char_ne_dash _ (Nat.mod_lt _ (by omega))

theorem takeWhile_all_append {p : Char → Bool} {as : List Char} {b : Char}
    (bs : List Char) (ha : ∀ c ∈ as, p c = true) (hb : p b = false) :
    (as ++ b :: bs).takeWhile p = as := by
  induction as with
  | nil => simp [List.takeWhile, hb]
  | cons a rest ih =>
    have hpa : p a = true := ha a (by simp)
    simp only [List.cons_append, List.takeWhile_cons, hpa]
    simp [ih (fun c hc => ha c (by simp [hc]))]

theorem lastSeg_append (xs ys : List Char) (hy : ∀ c ∈ ys, c ≠ '-') :
    lastSeg (xs ++ '-' :: ys) = ys := by
  unfold lastSeg
  rw [List.reverse_append, List.reverse_cons, List.append_assoc, List.singleton_append]
  rw [takeWhile_all_append (xs.reverse)
    (by intro c hc; simpa using hy c (List.mem_reverse.mp hc)) (by simp)]
  simp

theorem idTag_createClientId (now c : Nat) :
    idTag (createClientId now c) = some c := by
  unfold idTag createClientId clientIdChars
  simp only [String.data]
  rw [lastSeg_append ('c' :: '-' :: toB36 now) (toB36 c) (toB36_ne_dash c), parseB36_toB36]
  simp

theorem createClientId_ne {c1 c2 : Nat} (h : c1 ≠ c2) (n1 n2 : Nat) :
    createClientId n1 c1 ≠ createClientId n2 c2 := by
  intro he
  apply h
  have := idTag_createClientId n1 c1
  rw [he, idTag_createClientId n2 c2] at this
  exact (Option.some_inj.mp this).symm

/-! ## Association-list lemmas -/

theorem alookup_eq_none {α β : Type} [DecidableEq α] {l : List (α × β)} {k : α} :
    alookup k l = none ↔ k ∉ l.map Prod.fst := by
  induction l with
  | nil => simp [alookup]
  | cons p rest ih =>
    by_cases hp : p.1 = k
    · simp [alookup, hp]
    · rw [show alookup k (p :: rest) = alookup k rest from by simp [alookup, hp], ih]
      simp only [List.map_cons, List.mem_cons]
      constructor
      · intro h hor
        rcases hor with h1 | h1
        · exact hp h1.symm
        · exact h h1
      · intro h h1
        exact h (Or.inr h1)

theorem mapSet_of_none {α β : Type} [DecidableEq α] {l : List (α × β)} {k : α}
    (v : β) (h : alookup k l = none) : mapSet l k v = l ++ [(k, v)] := by
  induction l with
  | nil => simp [mapSet]
  | cons p rest ih =>
    simp only [alookup] at h
    by_cases hp : p.1 = k
    · simp [hp] at h
    · simp only [mapSet, hp, if_false, if_neg hp]
      rw [ih (by simpa [hp] using h)]
      simp

theorem alookup_split {α β : Type} [DecidableEq α] {l : List (α × β)} {k : α} {v : β}
    (h : alookup k l = some v) :
    ∃ l1 l2, l = l1 ++ (k, v) :: l2 ∧ alookup k l1 = none := by
  induction l with
  | nil => simp [alookup] at h
  | cons p rest ih =>
    by_cases hp : p.1 = k
    · refine ⟨[], rest, ?_, by simp [alookup]⟩
      simp only [alookup, hp, if_pos] at h
      obtain ⟨k1, v1⟩ := p
      simp_all
    · simp only [alookup, hp, if_neg hp] at h
      obtain ⟨l1, l2, he, hn⟩ := ih h
      exact ⟨p :: l1, l2, by simp [he], by simp [alookup, hp, hn]⟩

theorem mapSet_split {α β : Type} [DecidableEq α] {l1 : List (α × β)} {k : α}
    (v v' : β) (l2 : List (α × β)) (h : alookup k l1 = none) :
    mapSet (l1 ++ (k, v) :: l2) k v' = l1 ++ (k, v') :: l2 := by
  induction l1 with
  | nil => simp [mapSet]
  | cons p rest ih =>
    simp only [alookup] at h
    by_cases hp : p.1 = k
    · simp [hp] at h
    · simp only [List.cons_append, mapSet, if_neg hp, List.append_eq]
      rw [ih (by simpa [hp] using h)]

theorem mapDelete_sublist {α β : Type} [DecidableEq α] (l : List (α × β)) (k : α) :
    List.Sublist (mapDelete l k) l :=
  List.filter_sublist l

theorem alookup_mapDelete_self {α β : Type} [DecidableEq α] (l : List (α × β)) (k : α) :
    alookup k (mapDelete l k) = none := by
  rw [alookup_eq_none]
  intro hm
  obtain ⟨p, hp, he⟩ := List.mem_map.mp hm
  have := List.of_mem_filter hp
  simp [he] at this

theorem alookup_append {α β : Type} [DecidableEq α] (l1 l2 : List (α × β)) (k : α) :
    alookup k (l1 ++ l2) =
      match alookup k l1 with
      | some v => some v
      | none => alookup k l2 := by
  induction l1 with
  | nil => simp [alookup]
  | cons p rest ih =>
    by_cases hp : p.1 = k
    · simp [alookup, hp]
    · simp [alookup, hp, ih]

/-! ## State-component lemmas -/

theorem sessions_updSock (s : Srv) (sid : Nat) (f : Sock → Sock) :
    (updSock s sid f).sessions = s.sessions := rfl

theorem counter_updSock (s : Srv) (sid : Nat) (f : Sock → Sock) :
    (updSock s sid f).clientCounter = s.clientCounter := rfl

theorem alookup_updList (l : List (Nat × Sock)) (k j : Nat) (f : Sock → Sock) :
    alookup j (l.map (fun p => if p.1 = k then (p.1, f p.2) else p)) =
      if j = k then (alookup j l).map f else alookup j l := by
  induction l with
  | nil => by_cases hj : j = k <;> simp [alookup, hj]
  | cons p rest ih =>
    obtain ⟨a, b⟩ := p
    by_cases hp : a = k
    · subst hp
      by_cases hj : a = j
      · subst hj
        simp [alookup]
      · have hj2 : ¬ j = a := fun h => hj h.symm
        simp [alookup, hj, hj2, ih]
    · by_cases hj : a = j
      · subst hj
        have hj2 : ¬ a = k := hp
        simp [alookup, fun h : a = k => hp h, hj2]
      · have hj2 : ¬ j = a := fun h => hj h.symm
        simp [alookup, hp, hj, ih]

theorem getSock_updSock (s : Srv) (sid j : Nat) (f : Sock → Sock) :
    getSock (updSock s sid f) j =
      if j = sid then (getSock s j).map f else getSock s j := by
  unfold getSock updSock
  exact alookup_updList s.sockets sid j f

theorem getSock_updSock_other {s : Srv} {sid j : Nat} (f : Sock → Sock)
    (h : j ≠ sid) : getSock (updSock s sid f) j = getSock s j := by
  rw [getSock_updSock, if_neg h]

theorem sockOpen_updSock (s : Srv) (sid j : Nat) (f : Sock → Sock)
    (hf : ∀ k, (f k).readyOpen = k.readyOpen) :
    sockOpen (updSock s sid f) j = sockOpen s j := by
  unfold sockOpen
  rw [getSock_updSock]
  by_cases hj : j = sid
  · cases hk : getSock s j <;> simp [hj, hk, hf]
  · simp [hj]

theorem getInfo_updSock (s : Srv) (sid j : Nat) (f : Sock → Sock)
    (hf : ∀ k, (f k).clientInfo = k.clientInfo) :
    getInfo (updSock s sid f) j = getInfo s j := by
  unfold getInfo
  rw [getSock_updSock]
  by_cases hj : j = sid
  · cases hk : getSock s j <;> simp [hj, hk, hf]
  · simp [hj]

theorem sockAlive_updSock (s : Srv) (sid j : Nat) (f : Sock → Sock)
    (hf : ∀ k, (f k).isAlive = k.isAlive) :
    sockAlive (updSock s sid f) j = sockAlive s j := by
  unfold sockAlive
  rw [getSock_updSock]
  by_cases hj : j = sid
  · cases hk : getSock s j <;> simp [hj, hk, hf]
  · simp [hj]

theorem sockOpen_setInfo (s : Srv) (sid j : Nat) (i : Option CInfo) :
    sockOpen (setInfo s sid i) j = sockOpen s j :=
  sockOpen_updSock s sid j _ (fun _ => rfl)

theorem getInfo_setInfo_other {s : Srv} {sid j : Nat} (i : Option CInfo)
    (h : j ≠ sid) : getInfo (setInfo s sid i) j = getInfo s j := by
  unfold getInfo setInfo
  rw [getSock_updSock_other _ h]

theorem getInfo_setInfo_self {s : Srv} {sid : Nat} (i : Option CInfo)
    (h : (getSock s sid).isSome) : getInfo (setInfo s sid i) sid = i := by
  unfold getInfo setInfo
  rw [getSock_updSock, if_pos rfl]
  cases hk : getSock s sid with
  | none => rw [hk] at h; simp at h
  | some k => simp

theorem getInfo_doClose (s : Srv) (sid j : Nat) :
    getInfo (doClose s sid).1 j = getInfo s j :=
  getInfo_updSock s sid j _ (fun _ => rfl)

theorem sessions_setInfo (s : Srv) (sid : Nat) (i : Option CInfo) :
    (setInfo s sid i).sessions = s.sessions := rfl

theorem counter_setInfo (s : Srv) (sid : Nat) (i : Option CInfo) :
    (setInfo s sid i).clientCounter = s.clientCounter := rfl

/-! ## `sessionsIds` transport lemmas -/

theorem sessionsIds_append (l1 l2 : List (String × Session)) :
    sessionsIds (l1 ++ l2) = sessionsIds l1 ++ sessionsIds l2 := by
  induction l1 with
  | nil => simp [sessionsIds]
  | cons p rest ih => simp [sessionsIds, ih]

theorem sessionsIds_sublist {l1 l2 : List (String × Session)}
    (h : List.Sublist l1 l2) : List.Sublist (sessionsIds l1) (sessionsIds l2) := by
  induction h with
  | slnil => exact List.Sublist.refl _
  | cons pr _ ih =>
    exact List.Sublist.trans ih (by simp [sessionsIds])
  | cons₂ pr _ ih =>
    exact List.Sublist.append_left ih _

/-- Splitting the player-id pool at one registered session. -/
theorem allIds_replace (s : Srv) (code : String) (sess sess2 : Session)
    (h : alookup code s.sessions = some sess) :
    ∃ A1 A2, allPlayerIds s = A1 ++ sess.players.map Prod.fst ++ A2 ∧
      allPlayerIds { s with sessions := mapSet s.sessions code sess2 } =
        A1 ++ sess2.players.map Prod.fst ++ A2 := by
  obtain ⟨l1, l2, he, hn⟩ := alookup_split h
  refine ⟨sessionsIds l1, sessionsIds l2, ?_, ?_⟩
  · simp [allPlayerIds, he, sessionsIds_append, sessionsIds, List.append_assoc]
  · simp only [allPlayerIds, he, mapSet_split _ sess2 l2 hn]
    simp [sessionsIds_append, sessionsIds, List.append_assoc]

theorem mem_allIds_of_session {s : Srv} {code : String} {sess : Session}
    (h : alookup code s.sessions = some sess) {p : String}
    (hp : p ∈ sess.players.map Prod.fst) : p ∈ allPlayerIds s := by
  obtain ⟨A1, A2, he, _⟩ := allIds_replace s code sess sess h
  rw [he]
  simp [hp]

/-! ## Preservation of the id-freshness invariant -/

theorem idInv_congr {s s' : Srv} (hs : s'.sessions = s.sessions)
    (hc : s'.clientCounter = s.clientCounter) (h : IdInv s) : IdInv s' := by
  constructor
  · rw [show allPlayerIds s' = allPlayerIds s from by rw [allPlayerIds, hs]; rfl]
    exact h.1
  · intro p hp
    rw [show allPlayerIds s' = allPlayerIds s from by rw [allPlayerIds, hs]; rfl] at hp
    obtain ⟨c, h1, h2⟩ := h.2 p hp
    exact ⟨c, h1, by omega⟩

theorem idInv_of_subIds {s s' : Srv}
    (hsub : List.Sublist (allPlayerIds s') (allPlayerIds s))
    (hc : s.clientCounter ≤ s'.clientCounter) (h : IdInv s) : IdInv s' := by
  constructor
  · exact h.1.sublist hsub
  · intro p hp
    obtain ⟨c, h1, h2⟩ := h.2 p (hsub.subset hp)
    exact ⟨c, h1, by omega⟩

theorem endLoop_sessions (st : Srv) (l : List (String × Nat)) (r : String) :
    (endLoop st l r).1.sessions = st.sessions := by
  induction l generalizing st with
  | nil => rfl
  | cons p rest ih => simp [endLoop, ih, doClose, setInfo, updSock]

theorem endLoop_counter (st : Srv) (l : List (String × Nat)) (r : String) :
    (endLoop st l r).1.clientCounter = st.clientCounter := by
  induction l generalizing st with
  | nil => rfl
  | cons p rest ih => simp [endLoop, ih, doClose, setInfo, updSock]

theorem endSession_sessions (s : Srv) (sess : Session) (r : String) :
    (endSession s sess r).1.sessions = mapDelete s.sessions sess.code := by
  unfold endSession
  rw [endLoop_sessions]

theorem endSession_counter (s : Srv) (sess : Session) (r : String) :
    (endSession s sess r).1.clientCounter = s.clientCounter := by
  unfold endSession
  rw [endLoop_counter]

theorem idInv_endSession {s : Srv} (sess : Session) (r : String) (h : IdInv s) :
    IdInv (endSession s sess r).1 := by
  apply idInv_of_subIds (s := s)
  · rw [show allPlayerIds (endSession s sess r).1 =
        sessionsIds (mapDelete s.sessions sess.code) from by
      rw [allPlayerIds, endSession_sessions]]
    exact sessionsIds_sublist (mapDelete_sublist _ _)
  · rw [endSession_counter]
  · exact h

theorem detachFinish_sessions (r1 : Srv × List Event) (sid : Nat) (sil : Bool) :
    (detachFinish r1 sid sil).1.sessions = r1.1.sessions := by
  unfold detachFinish
  dsimp only
  split <;> simp [doClose, setInfo, updSock]

theorem detachFinish_counter (r1 : Srv × List Event) (sid : Nat) (sil : Bool) :
    (detachFinish r1 sid sil).1.clientCounter = r1.1.clientCounter := by
  unfold detachFinish
  dsimp only
  split <;> simp [doClose, setInfo, updSock]

/-- First component of a conditional whose branches share a state. -/
theorem fst_ite_pair {c : Prop} [Decidable c] (a : Srv) (e1 e2 : List Event) :
    (if c then (a, e1) else (a, e2)).1 = a := by
  split <;> rfl

/-- After a still-registered player detaches, the id pool shrinks (as a
sublist); packaged with the state so callers can reuse it. -/
theorem idInv_playerRemoval {s : Srv} {code : String} {sess : Session} (pid : String)
    (halo : alookup code s.sessions = some sess) (h : IdInv s) :
    IdInv { s with sessions := mapSet s.sessions code { sess with players := mapDelete sess.players pid } } := by
  obtain ⟨A1, A2, he1, he2⟩ := allIds_replace s code sess
    ({ sess with players := mapDelete sess.players pid }) halo
  refine idInv_of_subIds (s := s) ?_ ?_ h
  · rw [he1, he2]
    exact List.Sublist.append
      (List.Sublist.append_left ((mapDelete_sublist _ _).map Prod.fst) A1)
      (List.Sublist.refl A2)
  · exact le_refl _

theorem idInv_detachBody {s : Srv} (sid : Nat) (r : Option String) (info : CInfo)
    (h : IdInv s) : IdInv (detachBody s sid r info).1 := by
  unfold detachBody
  cases info with
  | dmInfo code =>
    dsimp only
    cases halo : alookup code s.sessions with
    | none => exact h
    | some sess =>
      by_cases hdm : sess.dm = sid
      · simp only [hdm, if_pos rfl]
        exact idInv_endSession sess _ h
      · simp only [if_neg hdm]
        exact h
  | playerInfo code pid =>
    dsimp only
    cases halo : alookup code s.sessions with
    | none => exact h
    | some sess =>
      dsimp only
      by_cases hpid : alookup pid sess.players = some sid
      · rw [if_pos hpid]
        have hinv2 := idInv_playerRemoval pid halo h
        rw [fst_ite_pair]
        exact hinv2
      · simp only [if_neg hpid]
        exact h

theorem idInv_detach {s : Srv} (sid : Nat) (r : Option String) (sil : Bool)
    (h : IdInv s) : IdInv (detachClient s sid r sil).1 := by
  unfold detachClient
  cases getInfo s sid with
  | none => exact h
  | some info =>
    exact idInv_congr (detachFinish_sessions _ _ _) (detachFinish_counter _ _ _)
      (idInv_detachBody sid r info h)

theorem detach_counter (s : Srv) (sid : Nat) (r : Option String) (sil : Bool) :
    (detachClient s sid r sil).1.clientCounter = s.clientCounter := by
  unfold detachClient
  cases getInfo s sid with
  | none => rfl
  | some info =>
    rw [detachFinish_counter]
    unfold detachBody
    cases info with
    | dmInfo code =>
      dsimp only
      cases halo : alookup code s.sessions with
      | none => rfl
      | some sess =>
        by_cases hdm : sess.dm = sid
        · simp [hdm, endSession_counter]
        · simp [hdm]
    | playerInfo code pid =>
      dsimp only
      cases halo : alookup code s.sessions with
      | none => rfl
      | some sess =>
        dsimp only
        by_cases hpid : alookup pid sess.players = some sid
        · rw [if_pos hpid, fst_ite_pair]
        · simp [hpid]

theorem idInv_initSrv : IdInv initSrv := by
  constructor
  · exact List.Pairwise.nil
  · intro p hp
    simp [allPlayerIds, initSrv, sessionsIds] at hp

theorem idInv_counterLe {s : Srv} (n : Nat) (h : IdInv s)
    (hle : s.clientCounter ≤ n) : IdInv { s with clientCounter := n } := by
  refine idInv_of_subIds (s := s) ?_ ?_ h
  · exact List.Sublist.refl _
  · exact hle

theorem idInv_appendSession {s : Srv} {code : String} (sess : Session)
    (h : alookup code s.sessions = none) (hpl : sess.players = [])
    (hinv : IdInv s) : IdInv { s with sessions := mapSet s.sessions code sess } := by
  refine idInv_of_subIds (s := s) ?_ (le_refl _) hinv
  have hids : allPlayerIds { s with sessions := mapSet s.sessions code sess } =
      allPlayerIds s := by
    show sessionsIds (mapSet s.sessions code sess) = sessionsIds s.sessions
    rw [mapSet_of_none sess h, sessionsIds_append]
    simp [sessionsIds, hpl]
  rw [hids]

theorem idInv_handleCreate {s : Srv} (sid : Nat) (cv : JVal) (h : IdInv s) :
    IdInv (handleCreateSession s sid cv).1 := by
  unfold handleCreateSession
  by_cases h1 : normalizeCode cv = ""
  · rw [if_pos h1]
    exact h
  · rw [if_neg h1]
    by_cases h2 : isDmRole (getInfo s sid) = true
    · rw [if_pos h2]
      exact h
    · rw [if_neg h2]
      by_cases h3 : (alookup (normalizeCode cv) s.sessions).isSome = true
      · rw [if_pos h3]
        exact h
      · rw [if_neg h3]
        dsimp only
        refine idInv_congr (s := { s with sessions := mapSet s.sessions (normalizeCode cv) { code := normalizeCode cv, dm := sid, players := [] } }) rfl rfl ?_
        exact idInv_appendSession _ (Option.not_isSome_iff_eq_none.mp h3) rfl h

/-- Inserting a freshly generated participant id into a registered session
preserves the invariant and bumps the counter. -/
theorem idInv_joinInsert {s : Srv} {code : String} {sess : Session} (sid now : Nat)
    (halo : alookup code s.sessions = some sess) (hinv : IdInv s) :
    IdInv { s with sessions := mapSet s.sessions code { sess with players := mapSet sess.players (createClientId now (s.clientCounter + 1)) sid }, clientCounter := s.clientCounter + 1 } := by
  set pid := createClientId now (s.clientCounter + 1) with hpid
  have htag : idTag pid = some (s.clientCounter + 1) := idTag_createClientId _ _
  have hfresh0 : pid ∉ allPlayerIds s := by
    intro hmem
    obtain ⟨c, hc1, hc2⟩ := hinv.2 pid hmem
    rw [htag] at hc1
    have : c = s.clientCounter + 1 := (Option.some_inj.mp hc1).symm
    omega
  have hfreshP : alookup pid sess.players = none := by
    rw [alookup_eq_none]
    intro hk
    exact hfresh0 (mem_allIds_of_session halo hk)
  have hplayers : mapSet sess.players pid sid = sess.players ++ [(pid, sid)] :=
    mapSet_of_none sid hfreshP
  obtain ⟨A1, A2, he1, he2⟩ := allIds_replace s code sess
    ({ sess with players := mapSet sess.players pid sid }) halo
  have hids2 : allPlayerIds { s with sessions := mapSet s.sessions code { sess with players := mapSet sess.players pid sid }, clientCounter := s.clientCounter + 1 } = A1 ++ (sess.players.map Prod.fst ++ [pid]) ++ A2 := by
    rw [show allPlayerIds { s with sessions := mapSet s.sessions code { sess with players := mapSet sess.players pid sid }, clientCounter := s.clientCounter + 1 } = allPlayerIds { s with sessions := mapSet s.sessions code { sess with players := mapSet sess.players pid sid } } from rfl]
    rw [he2]
    simp [hplayers]
  have hperm : List.Perm (A1 ++ (sess.players.map Prod.fst ++ [pid]) ++ A2)
      (allPlayerIds s ++ [pid]) := by
    rw [he1]
    have h2 : List.Perm (A1 ++ sess.players.map Prod.fst ++ ([pid] ++ A2))
        (A1 ++ sess.players.map Prod.fst ++ (A2 ++ [pid])) :=
      List.Perm.append_left _ List.perm_append_comm
    have e1 : A1 ++ (sess.players.map Prod.fst ++ [pid]) ++ A2
        = A1 ++ sess.players.map Prod.fst ++ ([pid] ++ A2) := by
      simp [List.append_assoc]
    have e2 : A1 ++ sess.players.map Prod.fst ++ (A2 ++ [pid])
        = A1 ++ sess.players.map Prod.fst ++ A2 ++ [pid] := by
      simp [List.append_assoc]
    rw [e1, ← e2]
    exact h2
  constructor
  · rw [hids2]
    refine List.Perm.pairwise hperm.symm ?_ (fun hab => Ne.symm hab)
    rw [List.pairwise_append]
    refine ⟨hinv.1, List.pairwise_singleton _ _, ?_⟩
    intro a ha b hb
    obtain ⟨c, hc1, hc2⟩ := hinv.2 a ha
    have hbpid : b = pid := by simpa using hb
    rw [hbpid]
    unfold TagNe
    rw [hc1, htag]
    intro hcc
    have : c = s.clientCounter + 1 := Option.some_inj.mp hcc
    omega
  · intro p hp
    rw [hids2] at hp
    have hp2 : p ∈ allPlayerIds s ++ [pid] := hperm.subset hp
    rcases List.mem_append.mp hp2 with hmem | hmem
    · obtain ⟨c, hc1, hc2⟩ := hinv.2 p hmem
      refine ⟨c, hc1, ?_⟩
      show c ≤ s.clientCounter + 1
      omega
    · have : p = pid := by simpa using hmem
      exact ⟨s.clientCounter + 1, this ▸ htag, le_refl _⟩

theorem idInv_handleJoin {s : Srv} (sid : Nat) (cv : JVal) (now : Nat)
    (h : IdInv s) : IdInv (handleJoinSession s sid cv now).1 := by
  unfold handleJoinSession
  by_cases h1 : normalizeCode cv = ""
  · rw [if_pos h1]
    exact h
  · rw [if_neg h1]
    cases halo : alookup (normalizeCode cv) s.sessions with
    | none => exact h
    | some sess =>
      dsimp only
      by_cases h2 : sockOpen s sess.dm = false
      · rw [if_pos h2]
        exact h
      · rw [if_neg h2]
        have hmid : IdInv (if (getInfo s sid).isSome = true then detachClient s sid none true else (s, [])).1 := by
          split
          · exact idInv_detach sid none true h
          · exact h
        have hcmid : (if (getInfo s sid).isSome = true then detachClient s sid none true else (s, [])).1.clientCounter = s.clientCounter := by
          split
          · exact detach_counter s sid none true
          · rfl
        set sMid := (if (getInfo s sid).isSome = true then detachClient s sid none true else (s, [])).1 with hsMid
        cases halo2 : alookup (normalizeCode cv) sMid.sessions with
        | none =>
          refine idInv_congr (s := { sMid with clientCounter := sMid.clientCounter + 1 }) rfl rfl ?_
          exact idInv_counterLe _ hmid (by omega)
        | some sess2 =>
          refine idInv_congr (s := { sMid with sessions := mapSet sMid.sessions (normalizeCode cv) { sess2 with players := mapSet sess2.players (createClientId now (sMid.clientCounter + 1)) sid }, clientCounter := sMid.clientCounter + 1 }) rfl rfl ?_
          exact idInv_joinInsert sid now halo2 hmid

theorem relayFromDm_state (s : Srv) (sid : Nat) (p v : JVal) :
    (relayFromDm s sid p v).1 = s := by
  unfold relayFromDm
  cases hinfo : getInfo s sid with
  | none => rfl
  | some info =>
    cases info with
    | playerInfo c q => rfl
    | dmInfo code =>
      dsimp only
      cases halo : alookup code s.sessions with
      | none => rfl
      | some sess =>
        dsimp only
        by_cases hp : (p.truthy && p.typeofObject) = false
        · rw [if_pos hp]
        · rw [if_neg hp]
          by_cases hs : v.isNonEmptyStr = true
          · rw [if_pos hs]
            cases v with
            | vStr q =>
              dsimp only
              cases alookup q sess.players <;> rfl
            | vUndef => rfl
            | vNull => rfl
            | vNum n => rfl
            | vBool b => rfl
            | vObj t => rfl
          · rw [if_neg hs]

theorem idInv_relayFromPlayer {s : Srv} (sid : Nat) (payload : JVal)
    (h : IdInv s) : IdInv (relayFromPlayer s sid payload).1 := by
  unfold relayFromPlayer
  cases hinfo : getInfo s sid with
  | none => exact h
  | some info =>
    cases info with
    | dmInfo c => exact h
    | playerInfo code pid =>
      dsimp only
      cases halo : alookup code s.sessions with
      | none => exact idInv_detach sid _ false h
      | some sess =>
        dsimp only
        by_cases h2 : sockOpen s sess.dm = false
        · rw [if_pos h2]
          exact idInv_detach sid _ false h
        · rw [if_neg h2]
          by_cases h3 : payload.typeofObject = false
          · rw [if_pos h3]
            exact h
          · rw [if_neg h3]
            exact h

theorem idInv_handleClose {s : Srv} (sid : Nat) (h : IdInv s) :
    IdInv (handleCloseSession s sid).1 := by
  unfold handleCloseSession
  cases hinfo : getInfo s sid with
  | none => exact h
  | some info =>
    cases info with
    | playerInfo c q => exact h
    | dmInfo code =>
      dsimp only
      cases halo : alookup code s.sessions with
      | none => exact h
      | some sess =>
        dsimp only
        by_cases hdm : sess.dm = sid
        · rw [if_pos hdm]
          exact idInv_congr rfl rfl (idInv_endSession sess _ h)
        · rw [if_neg hdm]
          exact h

theorem idInv_handleMessage {s : Srv} (sid now : Nat) (m : ClientMsg)
    (h : IdInv s) : IdInv (handleMessage s sid now m).1 := by
  cases m with
  | createSession cv => exact idInv_handleCreate sid cv h
  | joinSession cv => exact idInv_handleJoin sid cv now h
  | relay payload pidV =>
    unfold handleMessage
    dsimp only
    by_cases hd : isDmRole (getInfo s sid) = true
    · rw [if_pos hd, relayFromDm_state]
      exact h
    · rw [if_neg hd]
      exact idInv_relayFromPlayer sid payload h
  | closeSession => exact idInv_handleClose sid h
  | other => exact h

theorem idInv_tickOne {acc : Srv × List Event} (sid : Nat) (h : IdInv acc.1) :
    IdInv (tickOne acc sid).1 := by
  unfold tickOne
  dsimp only
  cases hk : getSock acc.1 sid with
  | none => exact h
  | some k =>
    dsimp only
    by_cases ha : k.isAlive = false
    · rw [if_pos ha]
      exact idInv_congr rfl rfl (idInv_detach sid _ true h)
    · rw [if_neg ha]
      exact idInv_congr rfl rfl h

theorem idInv_tickLoop (sids : List Nat) {acc : Srv × List Event}
    (h : IdInv acc.1) : IdInv (tickLoop acc sids).1 := by
  induction sids generalizing acc with
  | nil => exact h
  | cons sid rest ih => exact ih (idInv_tickOne sid h)

theorem idInv_step (s : Srv) (i : Input) (h : IdInv s) :
    IdInv (stepInput s i).1 := by
  cases i with
  | connect sid =>
    unfold stepInput
    dsimp only
    split
    · exact h
    · exact idInv_congr rfl rfl h
  | msg sid now m =>
    unfold stepInput
    dsimp only
    split
    · exact idInv_handleMessage sid now m h
    · exact h
  | pong sid => exact idInv_congr rfl rfl h
  | rawClose sid => exact idInv_congr rfl rfl h
  | closeEvt sid =>
    exact idInv_detach sid none true (idInv_congr rfl rfl h)
  | tick => exact idInv_tickLoop _ h

theorem idInv_reach {s : Srv} (h : Reach s) : IdInv s := by
  induction h with
  | init => exact idInv_initSrv
  | step s i _ ih => exact idInv_step s i ih

/-! ## More helper lemmas for the claim proofs -/

theorem alookup_mapSet_self {α β : Type} [DecidableEq α] (l : List (α × β))
    (k : α) (v : β) : alookup k (mapSet l k v) = some v := by
  induction l with
  | nil => simp [mapSet, alookup]
  | cons p rest ih =>
    by_cases hp : p.1 = k
    · simp [mapSet, hp, alookup]
    · simp [mapSet, hp, alookup, ih]

theorem sockOpen_setSessions (s : Srv) (l : List (String × Session)) (j : Nat) :
    sockOpen { s with sessions := l } j = sockOpen s j := rfl

theorem getInfo_setSessions (s : Srv) (l : List (String × Session)) (j : Nat) :
    getInfo { s with sessions := l } j = getInfo s j := rfl

theorem getSock_setSessions (s : Srv) (l : List (String × Session)) (j : Nat) :
    getSock { s with sessions := l } j = getSock s j := rfl

theorem isSome_getSock_of_getInfo {s : Srv} {sid : Nat} {i : CInfo}
    (h : getInfo s sid = some i) : (getSock s sid).isSome = true := by
  unfold getInfo at h
  cases hk : getSock s sid with
  | none => rw [hk] at h; simp at h
  | some k => rfl

theorem sockOpen_doClose_self {s : Srv} {sid : Nat}
    (h : (getSock s sid).isSome = true) : sockOpen (doClose s sid).1 sid = false := by
  unfold doClose sockOpen
  rw [getSock_updSock, if_pos rfl]
  cases hk : getSock s sid with
  | none => rw [hk] at h; simp at h
  | some k => simp

theorem sockOpen_doClose_other {s : Srv} {sid j : Nat} (h : j ≠ sid) :
    sockOpen (doClose s sid).1 j = sockOpen s j := by
  unfold doClose sockOpen
  rw [getSock_updSock_other _ h]

/-- The broadcast loop delivers to exactly the registered players when all
their sockets are open. -/
theorem relayLoop_map (s : Srv) (players : List (String × Nat)) (payload : JVal)
    (hop : ∀ p ∈ players, sockOpen s p.2 = true) :
    relayLoop s players payload =
      players.map (fun p => Event.send p.2 (OutMsg.relayToPlayer payload)) := by
  induction players with
  | nil => rfl
  | cons p rest ih =>
    have hp : sockOpen s p.2 = true := hop p (by simp)
    simp only [relayLoop, safeSend, hp, if_pos, List.map_cons]
    rw [ih (fun q hq => hop q (by simp [hq]))]
    rfl

/-- One step of `endSession`'s loop, unfolded. -/
theorem endLoop_cons (st : Srv) (p : String × Nat) (rest : List (String × Nat))
    (r : String) :
    endLoop st (p :: rest) r =
      ((endLoop (setInfo (doClose st p.2).1 p.2 none) rest r).1,
        (safeSend st p.2 (OutMsg.sessionClosed (some r))).2 ++ [Event.closeSock p.2] ++
          (endLoop (setInfo (doClose st p.2).1 p.2 none) rest r).2) := rfl

theorem endLoop_getInfo_other (st : Srv) (l : List (String × Nat)) (r : String)
    (j : Nat) (hj : ∀ p ∈ l, p.2 ≠ j) :
    getInfo (endLoop st l r).1 j = getInfo st j := by
  induction l generalizing st with
  | nil => rfl
  | cons p rest ih =>
    have hpj : p.2 ≠ j := hj p (by simp)
    show getInfo (endLoop (setInfo (doClose st p.2).1 p.2 none) rest r).1 j = getInfo st j
    rw [ih _ (fun q hq => hj q (by simp [hq]))]
    rw [getInfo_setInfo_other _ (fun h => hpj h.symm), getInfo_doClose]

theorem endLoop_sockOpen_other (st : Srv) (l : List (String × Nat)) (r : String)
    (j : Nat) (hj : ∀ p ∈ l, p.2 ≠ j) :
    sockOpen (endLoop st l r).1 j = sockOpen st j := by
  induction l generalizing st with
  | nil => rfl
  | cons p rest ih =>
    have hpj : p.2 ≠ j := hj p (by simp)
    show sockOpen (endLoop (setInfo (doClose st p.2).1 p.2 none) rest r).1 j = sockOpen st j
    rw [ih _ (fun q hq => hj q (by simp [hq]))]
    rw [sockOpen_setInfo, sockOpen_doClose_other (fun h => hpj h.symm)]

theorem endLoop_getSock_isSome (st : Srv) (l : List (String × Nat)) (r : String)
    (j : Nat) : (getSock (endLoop st l r).1 j).isSome = (getSock st j).isSome := by
  induction l generalizing st with
  | nil => rfl
  | cons p rest ih =>
    show (getSock (endLoop (setInfo (doClose st p.2).1 p.2 none) rest r).1 j).isSome = _
    rw [ih]
    unfold setInfo doClose
    rw [getSock_updSock, getSock_updSock]
    by_cases hj : j = p.2 <;> cases hk : getSock st j <;> simp [hj, hk]

/-- When every notified player socket is open and the sockets are pairwise
distinct, `endSession`'s loop emits exactly one `session-closed` and one
close per player, in order. -/
theorem endLoop_events (st : Srv) (l : List (String × Nat)) (r : String)
    (hop : ∀ p ∈ l, sockOpen st p.2 = true)
    (hnd : (l.map Prod.snd).Nodup) :
    (endLoop st l r).2 = endLoopEvents l r := by
  induction l generalizing st with
  | nil => rfl
  | cons p rest ih =>
    have hp : sockOpen st p.2 = true := hop p (by simp)
    have hnd2 : (rest.map Prod.snd).Nodup := by
      simp only [List.map_cons, List.nodup_cons] at hnd
      exact hnd.2
    have hne : ∀ q ∈ rest, q.2 ≠ p.2 := by
      intro q hq he
      simp only [List.map_cons, List.nodup_cons] at hnd
      exact hnd.1 (he ▸ List.mem_map_of_mem Prod.snd hq)
    have hop2 : ∀ q ∈ rest, sockOpen (setInfo (doClose st p.2).1 p.2 none) q.2 = true := by
      intro q hq
      rw [sockOpen_setInfo, sockOpen_doClose_other (hne q hq)]
      exact hop q (by simp [hq])
    show ((safeSend st p.2 (OutMsg.sessionClosed (some r))).2 ++ [Event.closeSock p.2] ++
        (endLoop (setInfo (doClose st p.2).1 p.2 none) rest r).2) = _
    rw [ih _ hop2 hnd2]
    simp [safeSend, hp, endLoopEvents]

/-- Every event the teardown loop can emit is a `session-closed` notice or a
socket close. -/
theorem endLoop_events_shape (st : Srv) (l : List (String × Nat)) (r : String) :
    ∀ e ∈ (endLoop st l r).2,
      (∃ x m, e = Event.send x (OutMsg.sessionClosed m)) ∨
        ∃ x, e = Event.closeSock x := by
  induction l generalizing st with
  | nil => intro e he; simp [endLoop] at he
  | cons p rest ih =>
    intro e he
    rw [endLoop_cons] at he
    simp only [List.mem_append] at he
    rcases he with (he | he) | he
    · unfold safeSend at he
      split at he
      · simp at he
        exact Or.inl ⟨p.2, some r, he⟩
      · simp at he
    · simp at he
      exact Or.inr ⟨p.2, he⟩
    · exact ih _ e he

/-- Every event `detachClient` can emit is a `session-closed` notice, a
`player-left` notice, or a socket close — in particular never a
`session-joined` confirmation. -/
theorem detach_events_shape (s : Srv) (sid : Nat) (r : Option String) (sil : Bool) :
    ∀ e ∈ (detachClient s sid r sil).2,
      (∃ x m, e = Event.send x (OutMsg.sessionClosed m)) ∨
        (∃ x q, e = Event.send x (OutMsg.playerLeft q)) ∨
        ∃ x, e = Event.closeSock x := by
  intro e he
  unfold detachClient at he
  cases hinfo : getInfo s sid with
  | none => rw [hinfo] at he; simp at he
  | some info =>
    rw [hinfo] at he
    have hbody : ∀ e2 ∈ (detachBody s sid r info).2,
        (∃ x m, e2 = Event.send x (OutMsg.sessionClosed m)) ∨
          (∃ x q, e2 = Event.send x (OutMsg.playerLeft q)) ∨
          ∃ x, e2 = Event.closeSock x := by
      intro e2 he2
      unfold detachBody at he2
      cases info with
      | dmInfo code =>
        dsimp only at he2
        cases halo : alookup code s.sessions with
        | none => rw [halo] at he2; simp at he2
        | some sess =>
          rw [halo] at he2
          dsimp only at he2
          split at he2
          · unfold endSession at he2
            rcases endLoop_events_shape _ _ _ e2 he2 with h | h
            · exact Or.inl h
            · exact Or.inr (Or.inr h)
          · simp at he2
      | playerInfo code pid =>
        dsimp only at he2
        cases halo : alookup code s.sessions with
        | none => rw [halo] at he2; simp at he2
        | some sess =>
          rw [halo] at he2
          dsimp only at he2
          split at he2
          · split at he2
            · unfold safeSend at he2
              split at he2 <;> simp at he2 <;>
                exact Or.inr (Or.inl ⟨sess.dm, pid, he2⟩)
            · simp at he2
          · simp at he2
    unfold detachFinish at he
    dsimp only at he
    split at he
    · simp only [List.mem_append] at he
      rcases he with he | he
      · exact hbody e he
      · unfold doClose at he
        simp at he
        exact Or.inr (Or.inr ⟨sid, he⟩)
    · exact hbody e he

theorem getSock_isSome_updSock (s : Srv) (sid j : Nat) (f : Sock → Sock) :
    (getSock (updSock s sid f) j).isSome = (getSock s j).isSome := by
  rw [getSock_updSock]
  by_cases hj : j = sid <;> cases hk : getSock s j <;> simp [hj, hk]

/-- A payload that fails the `!payload || typeof payload !== 'object'` guard
of `relayFromDm` is exactly one that is not a structured object. -/
theorem truthyObject_of_structured (p : JVal) (h : structuredObj p = false) :
    (p.truthy && p.typeofObject) = false := by
  cases p <;> simp_all [structuredObj, JVal.truthy, JVal.typeofObject]

theorem relayFromDm_drop (s : Srv) (sid : Nat) (p v : JVal)
    (hp : (p.truthy && p.typeofObject) = false) :
    relayFromDm s sid p v = (s, []) := by
  unfold relayFromDm
  cases hinfo : getInfo s sid with
  | none => rfl
  | some info =>
    cases info with
    | playerInfo c q => rfl
    | dmInfo code =>
      dsimp only
      cases halo : alookup code s.sessions with
      | none => rfl
      | some sess =>
        dsimp only
        rw [if_pos hp]

/-! ## Reachability of the concrete trace states -/

theorem reach_trA1 : Reach trA1 := Reach.step _ _ Reach.init

theorem reach_trA2 : Reach trA2 := Reach.step _ _ reach_trA1

theorem reach_trA3 : Reach trA3 := Reach.step _ _ reach_trA2

theorem reach_trA4 : Reach trA4 := Reach.step _ _ reach_trA3

theorem reach_trA5 : Reach trA5 := Reach.step _ _ reach_trA4

theorem reach_trB5 : Reach trB5 := Reach.step _ _ reach_trA4

theorem reach_trB6 : Reach trB6 := Reach.step _ _ reach_trB5

/-! ## Claim C2 -/

/-- Claim C2, as stated, is false on the code: at the reachable state
`trA4`, socket 1 is bound as a participant of `ABC`, yet its
`create-session "DEF"` request succeeds and mutates the session table —
`handleCreateSession` only rejects requesters whose role is `'dm'`. -/
theorem c2_counterexample : ¬ C2Statement := by
  intro h
  have h2 := h trA4 1 (JVal.vStr "DEF") reach_trA4 (by decide)
  exact absurd h2.1 (by decide)

/-- Claim C2 amended: a create-session request from a connection bound as a
Host (role `'dm'`), or with an invalid (empty after normalization) code, or
with a code collision, emits a `session-error` notice to the requester and
performs no mutation.  (A Participant-bound connection's request is treated
as if the connection were unbound.) -/
theorem c2_amended (s : Srv) (sid : Nat) (cv : JVal)
    (hop : sockOpen s sid = true)
    (h : isDmRole (getInfo s sid) = true ∨ normalizeCode cv = "" ∨
      (alookup (normalizeCode cv) s.sessions).isSome = true) :
    (handleCreateSession s sid cv).1 = s ∧
      ∃ msg, (handleCreateSession s sid cv).2 =
        [Event.send sid (OutMsg.sessionError msg)] := by
  unfold handleCreateSession
  by_cases h1 : normalizeCode cv = ""
  · rw [if_pos h1]
    exact ⟨rfl, "Invalid session code. Refresh the page and try again.",
      by simp [safeSend, hop]⟩
  · rw [if_neg h1]
    by_cases h2 : isDmRole (getInfo s sid) = true
    · rw [if_pos h2]
      exact ⟨rfl, "You are already hosting a session.", by simp [safeSend, hop]⟩
    · rw [if_neg h2]
      have h3 : (alookup (normalizeCode cv) s.sessions).isSome = true := by
        rcases h with h | h | h
        · exact absurd h h2
        · exact absurd h h1
        · exact h
      rw [if_pos h3]
      exact ⟨rfl, "A session with that code already exists.", by simp [safeSend, hop]⟩

theorem c2_amended_witness :
    (handleCreateSession trA2 0 (JVal.vStr "ABC")).1 = trA2 ∧
      ∃ msg, (handleCreateSession trA2 0 (JVal.vStr "ABC")).2 =
        [Event.send 0 (OutMsg.sessionError msg)] :=
  c2_amended trA2 0 (JVal.vStr "ABC") (by decide) (Or.inl (by decide))

/-! ## Claim C9 -/

/-- Claim C9, as stated, is false on the code: a participant relay whose
payload is `null` is not dropped — `typeof null === 'object'` passes the
participant-side check, so the payload is forwarded to the host (seen at
the reachable state `trA4` with player socket 1). -/
theorem c9_counterexample : ¬ C9Statement := by
  intro h
  have h2 := h trA4 1 7 JVal.vNull JVal.vUndef reach_trA4 (by decide)
  exact absurd h2 (by decide)

/-- Claim C9 amended: a relay whose payload is not a structured object is
dropped silently (no delivery, no notice, no state change) — always for a
Host sender, and for a Participant sender whenever the payload fails the
`typeof`-object test (which `null` passes) and the registered host is still
live; a Participant with a dead host is torn down before the payload is
inspected. -/
theorem c9_amended :
    (∀ (s : Srv) (sid now : Nat) (payload pidV : JVal),
        isDmRole (getInfo s sid) = true → structuredObj payload = false →
        handleMessage s sid now (ClientMsg.relay payload pidV) = (s, [])) ∧
      ∀ (s : Srv) (sid now : Nat) (payload pidV : JVal) (code pid : String)
          (sess : Session),
        getInfo s sid = some (CInfo.playerInfo code pid) →
        alookup code s.sessions = some sess → sockOpen s sess.dm = true →
        payload.typeofObject = false →
        handleMessage s sid now (ClientMsg.relay payload pidV) = (s, []) := by
  constructor
  · intro s sid now payload pidV hd hns
    unfold handleMessage
    dsimp only
    rw [if_pos hd]
    exact relayFromDm_drop s sid payload pidV (truthyObject_of_structured payload hns)
  · intro s sid now payload pidV code pid sess hinfo hsess hdm hpl
    unfold handleMessage
    dsimp only
    rw [if_neg (by simp [isDmRole, hinfo])]
    unfold relayFromPlayer
    rw [hinfo]
    dsimp only
    rw [hsess]
    dsimp only
    rw [if_neg (by simp [hdm]), if_pos hpl]

theorem c9_amended_witness :
    handleMessage trA2 0 7 (ClientMsg.relay JVal.vNull JVal.vUndef) = (trA2, []) ∧
      handleMessage trA4 1 7 (ClientMsg.relay (JVal.vStr "x") JVal.vUndef) = (trA4, []) :=
  ⟨c9_amended.1 trA2 0 7 JVal.vNull JVal.vUndef (by decide) (by decide),
    c9_amended.2 trA4 1 7 (JVal.vStr "x") JVal.vUndef "ABC" "c-7-1"
      { code := "ABC", dm := 0, players := [("c-7-1", 1)] }
      (by decide) (by decide) (by decide) (by decide)⟩

/-! ## Claim C3 -/

/-- Claim C3, as stated, is false on the code: at the reachable state
`trB6` the session `DEF` is still registered although its host connection
(socket 1) was already torn down — socket 1 joined `ABC`, created `DEF`
from its participant binding, and was then closed and unbound when `ABC`'s
host closed that session over the stale participant entry. -/
theorem c3_counterexample : ¬ C3Statement := by
  intro h
  have h2 := h.1 trB6 reach_trB6 ("DEF", { code := "DEF", dm := 1, players := [] })
    (by decide)
  exact absurd h2.1 (by decide)

/-- Claim C3 amended: (i) whenever a connection that is still bound and
registered as the host of a session is detached, the session is removed
from the table; (ii) a join against a registered code whose host connection
is dead fails with the `SessionNotFound` notice and leaves the state — in
particular the stale entry — unchanged (the code does not destroy stale
entries on join). -/
theorem c3_amended :
    (∀ (s : Srv) (sid : Nat) (code : String) (sess : Session) (r : Option String)
        (sil : Bool),
        getInfo s sid = some (CInfo.dmInfo code) →
        alookup code s.sessions = some sess → sess.dm = sid → sess.code = code →
        alookup code (detachClient s sid r sil).1.sessions = none) ∧
      ∀ (s : Srv) (sid : Nat) (cv : JVal) (now : Nat) (sess : Session),
        normalizeCode cv ≠ "" →
        alookup (normalizeCode cv) s.sessions = some sess →
        sockOpen s sess.dm = false →
        handleJoinSession s sid cv now =
          (s, (safeSend s sid (OutMsg.sessionError
            "Session not found. Ask your DM for a new code.")).2) := by
  constructor
  · intro s sid code sess r sil hinfo hsess hdm hcode
    unfold detachClient
    rw [hinfo, detachFinish_sessions]
    unfold detachBody
    dsimp only
    rw [hsess]
    dsimp only
    rw [if_pos hdm, endSession_sessions, hcode]
    exact alookup_mapDelete_self _ _
  · intro s sid cv now sess hne hsess hdm
    unfold handleJoinSession
    rw [if_neg hne, hsess]
    dsimp only
    rw [if_pos hdm]

theorem c3_amended_witness :
    alookup "ABC" (detachClient trA2 0 none true).1.sessions = none ∧
      handleJoinSession trA5 1 (JVal.vStr "abc") 9 =
        (trA5, (safeSend trA5 1 (OutMsg.sessionError
          "Session not found. Ask your DM for a new code.")).2) :=
  ⟨c3_amended.1 trA2 0 "ABC" { code := "ABC", dm := 0, players := [] } none true
      (by decide) (by decide) rfl rfl,
    c3_amended.2 trA5 1 (JVal.vStr "abc") 9
      { code := "ABC", dm := 0, players := [("c-7-1", 1)] }
      (by decide) (by decide) (by decide)⟩

/-! ## Claim C1 -/

/-- Claim C1, as stated, is false on the code: a participant relaying while
its host is dead receives `{ type: 'session-closed' }` (no message) and a
socket close — never a `session-error` notice carrying the
`SessionUnavailable` message (the teardown reason string is dropped on the
player path of `detachClient`). -/
theorem c1_counterexample : ¬ C1Statement := by
  intro h
  obtain ⟨msg, hm⟩ := h trA5 1 "ABC" "c-7-1"
    { code := "ABC", dm := 0, players := [("c-7-1", 1)] } (JVal.vObj 0)
    reach_trA5 (by decide) (by decide) (by decide)
  have he : (relayFromPlayer trA5 1 (JVal.vObj 0)).2 =
      [Event.send 1 (OutMsg.sessionClosed none), Event.closeSock 1] := by decide
  rw [he] at hm
  simp at hm

/-- Claim C1 amended: when a bound participant relays while its session's
registered host connection is dead, nothing is delivered; the participant
receives a bare `session-closed` notice (not a `session-error`), its player
entry is removed, its binding is cleared, and its socket is closed. -/
theorem c1_amended (s : Srv) (sid : Nat) (code pid : String) (sess : Session)
    (payload : JVal)
    (hinfo : getInfo s sid = some (CInfo.playerInfo code pid))
    (hsess : alookup code s.sessions = some sess)
    (hdm : sockOpen s sess.dm = false)
    (hself : sockOpen s sid = true)
    (hpid : alookup pid sess.players = some sid) :
    (relayFromPlayer s sid payload).2 =
        [Event.send sid (OutMsg.sessionClosed none), Event.closeSock sid] ∧
      (∃ sess2, alookup code (relayFromPlayer s sid payload).1.sessions = some sess2 ∧
        alookup pid sess2.players = none) ∧
      getInfo (relayFromPlayer s sid payload).1 sid = none ∧
      sockOpen (relayFromPlayer s sid payload).1 sid = false := by
  have hbody : detachBody s sid (some "Session unavailable.") (CInfo.playerInfo code pid) =
      ({ s with sessions := mapSet s.sessions code { sess with players := mapDelete sess.players pid } }, []) := by
    unfold detachBody
    dsimp only
    rw [hsess]
    dsimp only
    rw [if_pos hpid]
    rw [if_neg (by rw [sockOpen_setSessions]; simp [hdm])]
  have hdet : detachClient s sid (some "Session unavailable.") false =
      ((doClose (setInfo { s with sessions := mapSet s.sessions code { sess with players := mapDelete sess.players pid } } sid none) sid).1, [Event.closeSock sid]) := by
    unfold detachClient
    rw [hinfo]
    dsimp only
    rw [hbody]
    unfold detachFinish
    dsimp only
    rw [if_pos (by
      refine ⟨rfl, ?_⟩
      rw [sockOpen_setInfo, sockOpen_setSessions]
      exact hself)]
    simp [doClose]
  have hmain : relayFromPlayer s sid payload =
      ((doClose (setInfo { s with sessions := mapSet s.sessions code { sess with players := mapDelete sess.players pid } } sid none) sid).1,
        [Event.send sid (OutMsg.sessionClosed none), Event.closeSock sid]) := by
    unfold relayFromPlayer
    rw [hinfo]
    dsimp only
    rw [hsess]
    dsimp only
    rw [if_pos hdm, hdet]
    simp [safeSend, hself]
  rw [hmain]
  have hsock2 : (getSock { s with sessions := mapSet s.sessions code { sess with players := mapDelete sess.players pid } } sid).isSome = true := by
    rw [getSock_setSessions]
    exact isSome_getSock_of_getInfo hinfo
  refine ⟨rfl, ⟨{ sess with players := mapDelete sess.players pid }, ?_, ?_⟩, ?_, ?_⟩
  · show alookup code (doClose _ sid).1.sessions = _
    unfold doClose
    rw [sessions_updSock]
    show alookup code (mapSet s.sessions code _) = _
    exact alookup_mapSet_self _ _ _
  · exact alookup_mapDelete_self _ _
  · rw [getInfo_doClose]
    exact getInfo_setInfo_self _ hsock2
  · apply sockOpen_doClose_self
    unfold setInfo
    rw [getSock_isSome_updSock]
    exact hsock2

theorem c1_amended_witness :
    (relayFromPlayer trA5 1 (JVal.vObj 0)).2 =
        [Event.send 1 (OutMsg.sessionClosed none), Event.closeSock 1] ∧
      (∃ sess2, alookup "ABC" (relayFromPlayer trA5 1 (JVal.vObj 0)).1.sessions = some sess2 ∧
        alookup "c-7-1" sess2.players = none) ∧
      getInfo (relayFromPlayer trA5 1 (JVal.vObj 0)).1 1 = none ∧
      sockOpen (relayFromPlayer trA5 1 (JVal.vObj 0)).1 1 = false :=
  c1_amended trA5 1 "ABC" "c-7-1" { code := "ABC", dm := 0, players := [("c-7-1", 1)] }
    (JVal.vObj 0) (by decide) (by decide) (by decide) (by decide) (by decide)

/-! ## Claim C4 -/

/-- Claim C4: after a successful create of a valid code, an immediate
second create with any code of the same normalized form (case and
whitespace variants included), issued by a connection not bound as a host,
fails with the `SessionExists` error notice, and the first session remains
registered under the normalized code. -/
theorem c4_create_then_create (s : Srv) (sid1 sid2 : Nat) (cv cv2 : JVal)
    (hvalid : normalizeCode cv ≠ "")
    (hnotdm1 : isDmRole (getInfo s sid1) = false)
    (hnone : alookup (normalizeCode cv) s.sessions = none)
    (hsame : normalizeCode cv2 = normalizeCode cv)
    (hnotdm2 : isDmRole (getInfo (handleCreateSession s sid1 cv).1 sid2) = false)
    (hop2 : sockOpen (handleCreateSession s sid1 cv).1 sid2 = true) :
    handleCreateSession (handleCreateSession s sid1 cv).1 sid2 cv2 =
        ((handleCreateSession s sid1 cv).1,
          [Event.send sid2 (OutMsg.sessionError "A session with that code already exists.")]) ∧
      alookup (normalizeCode cv) (handleCreateSession s sid1 cv).1.sessions =
        some { code := normalizeCode cv, dm := sid1, players := [] } := by
  have hs1 : (handleCreateSession s sid1 cv).1 =
      setInfo { s with sessions := mapSet s.sessions (normalizeCode cv) { code := normalizeCode cv, dm := sid1, players := [] } } sid1 (some (CInfo.dmInfo (normalizeCode cv))) := by
    unfold handleCreateSession
    rw [if_neg hvalid, if_neg (by simp [hnotdm1]), if_neg (by simp [hnone])]
  have hreg : alookup (normalizeCode cv) (handleCreateSession s sid1 cv).1.sessions =
      some { code := normalizeCode cv, dm := sid1, players := [] } := by
    rw [hs1, sessions_setInfo]
    show alookup (normalizeCode cv) (mapSet s.sessions (normalizeCode cv) _) = _
    exact alookup_mapSet_self _ _ _
  set s1 := (handleCreateSession s sid1 cv).1 with hs1def
  refine ⟨?_, hreg⟩
  unfold handleCreateSession
  rw [if_neg (by rw [hsame]; exact hvalid), if_neg (by simp [hnotdm2]),
    if_pos (by rw [hsame, hreg]; rfl)]
  simp [safeSend, hop2]

theorem c4_witness :
    handleCreateSession (handleCreateSession trC1 0 (JVal.vStr " abc ")).1 1 (JVal.vStr "abc ") =
        ((handleCreateSession trC1 0 (JVal.vStr " abc ")).1,
          [Event.send 1 (OutMsg.sessionError "A session with that code already exists.")]) ∧
      alookup (normalizeCode (JVal.vStr " abc "))
          (handleCreateSession trC1 0 (JVal.vStr " abc ")).1.sessions =
        some { code := normalizeCode (JVal.vStr " abc "), dm := 0, players := [] } :=
  c4_create_then_create trC1 0 1 (JVal.vStr " abc ") (JVal.vStr "abc ")
    (by decide) (by decide) (by decide) (by decide) (by decide) (by decide)

/-! ## Claims C5 and C10 -/

theorem truthyObject_of_obj (p : JVal) (h : structuredObj p = true) :
    (p.truthy && p.typeofObject) = true := by
  cases p <;> simp_all [structuredObj, JVal.truthy, JVal.typeofObject]

/-- Claim C5: a host relay with a structured payload naming a registered
participant id delivers only to that participant; naming an absent id
delivers to no one; naming no id broadcasts to exactly the registered
participants. -/
theorem c5_host_relay (s : Srv) (sid : Nat) (code : String) (sess : Session)
    (payload pidV : JVal)
    (hinfo : getInfo s sid = some (CInfo.dmInfo code))
    (hsess : alookup code s.sessions = some sess)
    (hobj : structuredObj payload = true) :
    (∀ pid target, pidV = JVal.vStr pid → pid ≠ "" →
        alookup pid sess.players = some target → sockOpen s target = true →
        relayFromDm s sid payload pidV =
          (s, [Event.send target (OutMsg.relayToPlayer payload)])) ∧
      (∀ pid, pidV = JVal.vStr pid → pid ≠ "" →
        alookup pid sess.players = none →
        relayFromDm s sid payload pidV = (s, [])) ∧
      (pidV.isNonEmptyStr = false →
        (∀ p ∈ sess.players, sockOpen s p.2 = true) →
        relayFromDm s sid payload pidV =
          (s, sess.players.map (fun p => Event.send p.2 (OutMsg.relayToPlayer payload)))) := by
  have hcommon : ∀ v : JVal, relayFromDm s sid payload v =
      (if v.isNonEmptyStr then
        match v with
        | JVal.vStr pid =>
          match alookup pid sess.players with
          | some target => (s, (safeSend s target (OutMsg.relayToPlayer payload)).2)
          | none => (s, [])
        | _ => (s, [])
      else (s, relayLoop s sess.players payload)) := by
    intro v
    unfold relayFromDm
    rw [hinfo]
    dsimp only
    rw [hsess]
    dsimp only
    rw [if_neg (by simp [truthyObject_of_obj payload hobj])]
  refine ⟨?_, ?_, ?_⟩
  · intro pid target hv hne hlook hop
    rw [hcommon, hv]
    rw [if_pos (by simp [JVal.isNonEmptyStr, hne])]
    dsimp only
    rw [hlook]
    simp [safeSend, hop]
  · intro pid hv hne hlook
    rw [hcommon, hv]
    rw [if_pos (by simp [JVal.isNonEmptyStr, hne])]
    dsimp only
    rw [hlook]
  · intro hns hop
    rw [hcommon, if_neg (by simp [hns])]
    rw [relayLoop_map s sess.players payload hop]

theorem c5_witness :
    relayFromDm trA4 0 (JVal.vObj 3) (JVal.vStr "c-7-1") =
        (trA4, [Event.send 1 (OutMsg.relayToPlayer (JVal.vObj 3))]) ∧
      relayFromDm trA4 0 (JVal.vObj 3) (JVal.vStr "zz") = (trA4, []) ∧
      relayFromDm trA4 0 (JVal.vObj 3) JVal.vUndef =
        (trA4, [("c-7-1", 1)].map (fun p => Event.send p.2 (OutMsg.relayToPlayer (JVal.vObj 3)))) :=
  ⟨(c5_host_relay trA4 0 "ABC" { code := "ABC", dm := 0, players := [("c-7-1", 1)] }
      (JVal.vObj 3) (JVal.vStr "c-7-1") (by decide) (by decide) (by decide)).1
      "c-7-1" 1 rfl (by decide) (by decide) (by decide),
    (c5_host_relay trA4 0 "ABC" { code := "ABC", dm := 0, players := [("c-7-1", 1)] }
      (JVal.vObj 3) (JVal.vStr "zz") (by decide) (by decide) (by decide)).2.1
      "zz" rfl (by decide) (by decide),
    (c5_host_relay trA4 0 "ABC" { code := "ABC", dm := 0, players := [("c-7-1", 1)] }
      (JVal.vObj 3) JVal.vUndef (by decide) (by decide) (by decide)).2.2
      (by decide) (by decide)⟩

/-- Claim C10: a host relay whose `playerId` field is present but not a
non-empty string (a number, an empty string, `null`, …) is treated as
untargeted: the structured payload is broadcast to every currently
registered participant. -/
theorem c10_untargeted_broadcast (s : Srv) (sid : Nat) (code : String)
    (sess : Session) (payload pidV : JVal)
    (hinfo : getInfo s sid = some (CInfo.dmInfo code))
    (hsess : alookup code s.sessions = some sess)
    (hobj : structuredObj payload = true)
    (hnotstr : pidV.isNonEmptyStr = false)
    (hop : ∀ p ∈ sess.players, sockOpen s p.2 = true) :
    relayFromDm s sid payload pidV =
      (s, sess.players.map (fun p => Event.send p.2 (OutMsg.relayToPlayer payload))) := by
  unfold relayFromDm
  rw [hinfo]
  dsimp only
  rw [hsess]
  dsimp only
  rw [if_neg (by simp [truthyObject_of_obj payload hobj]), if_neg (by simp [hnotstr])]
  rw [relayLoop_map s sess.players payload hop]

theorem c10_witness :
    relayFromDm trA4 0 (JVal.vObj 3) (JVal.vNum 5) =
        (trA4, [Event.send 1 (OutMsg.relayToPlayer (JVal.vObj 3))]) ∧
      relayFromDm trA4 0 (JVal.vObj 3) (JVal.vStr "") =
        (trA4, [Event.send 1 (OutMsg.relayToPlayer (JVal.vObj 3))]) :=
  ⟨c10_untargeted_broadcast trA4 0 "ABC" { code := "ABC", dm := 0, players := [("c-7-1", 1)] }
      (JVal.vObj 3) (JVal.vNum 5) (by decide) (by decide) (by decide) (by decide) (by decide),
    c10_untargeted_broadcast trA4 0 "ABC" { code := "ABC", dm := 0, players := [("c-7-1", 1)] }
      (JVal.vObj 3) (JVal.vStr "") (by decide) (by decide) (by decide) (by decide) (by decide)⟩

/-! ## Claim C6 -/

theorem getInfo_setInfo_none_self (x : Srv) (j : Nat) :
    getInfo (setInfo x j none) j = none := by
  unfold getInfo setInfo
  rw [getSock_updSock, if_pos rfl]
  cases getSock x j <;> simp

theorem getInfo_setInfo_none_pres (x : Srv) (j i : Nat) (h : getInfo x i = none) :
    getInfo (setInfo x j none) i = none := by
  by_cases hij : i = j
  · subst hij
    exact getInfo_setInfo_none_self x i
  · rw [getInfo_setInfo_other _ hij]
    exact h

/-- After the teardown loop, every notified player's binding is cleared. -/
theorem endLoop_getInfo_none (st : Srv) (l : List (String × Nat)) (r : String)
    (hnd : (l.map Prod.snd).Nodup) :
    ∀ p ∈ l, getInfo (endLoop st l r).1 p.2 = none := by
  induction l generalizing st with
  | nil => simp
  | cons q rest ih =>
    intro p hp
    simp only [List.map_cons, List.nodup_cons] at hnd
    have hstep : (endLoop st (q :: rest) r).1 =
        (endLoop (setInfo (doClose st q.2).1 q.2 none) rest r).1 := rfl
    rcases List.mem_cons.mp hp with hpq | hpr
    · subst hpq
      rw [hstep, endLoop_getInfo_other _ _ _ _
        (fun p2 hp2 he => hnd.1 (by rw [← he]; exact List.mem_map_of_mem Prod.snd hp2))]
      exact getInfo_setInfo_none_self _ _
    · rw [hstep]
      exact ih _ hnd.2 p hpr

/-- Claim C6: a close-session request is effective exactly when the sender
is the session's current registered host; when effective every participant
is notified with `session-closed` and closed, all bindings are cleared, the
session is removed, and a subsequent join with the same normalized code
fails with `SessionNotFound`; otherwise the request is ignored with no
mutation. -/
theorem c6_close_session :
    (∀ (s : Srv) (sid : Nat) (code : String) (sess : Session),
        getInfo s sid = some (CInfo.dmInfo code) →
        alookup code s.sessions = some sess → sess.dm = sid → sess.code = code →
        code ≠ "" →
        (sess.players.map Prod.snd).Nodup →
        (∀ p ∈ sess.players, sockOpen s p.2 = true) →
        alookup code (handleCloseSession s sid).1.sessions = none ∧
          (handleCloseSession s sid).2 =
            endLoopEvents sess.players "The DM closed the session." ∧
          (∀ p ∈ sess.players, getInfo (handleCloseSession s sid).1 p.2 = none) ∧
          getInfo (handleCloseSession s sid).1 sid = none ∧
          ∀ (sid2 now : Nat) (cv2 : JVal), normalizeCode cv2 = code →
            handleJoinSession (handleCloseSession s sid).1 sid2 cv2 now =
              ((handleCloseSession s sid).1,
                (safeSend (handleCloseSession s sid).1 sid2 (OutMsg.sessionError
                  "Session not found. Ask your DM for a new code.")).2)) ∧
      ∀ (s : Srv) (sid : Nat),
        (∀ code sess, getInfo s sid = some (CInfo.dmInfo code) →
          alookup code s.sessions = some sess → sess.dm ≠ sid) →
        handleCloseSession s sid = (s, []) := by
  constructor
  · intro s sid code sess hinfo hsess hdm hcode hne hnd hop
    have hmain : handleCloseSession s sid =
        (setInfo (endSession s sess "The DM closed the session.").1 sid none,
          (endSession s sess "The DM closed the session.").2) := by
      unfold handleCloseSession
      rw [hinfo]
      dsimp only
      rw [hsess]
      dsimp only
      rw [if_pos hdm]
    have hnone : alookup code (handleCloseSession s sid).1.sessions = none := by
      rw [hmain, sessions_setInfo, endSession_sessions, hcode]
      exact alookup_mapDelete_self _ _
    refine ⟨hnone, ?_, ?_, ?_, ?_⟩
    · rw [hmain]
      unfold endSession
      exact endLoop_events _ _ _ (fun p hp => hop p hp) hnd
    · intro p hp
      rw [hmain]
      apply getInfo_setInfo_none_pres
      unfold endSession
      exact endLoop_getInfo_none _ _ _ hnd p hp
    · rw [hmain]
      exact getInfo_setInfo_none_self _ _
    · intro sid2 now cv2 hsame
      unfold handleJoinSession
      rw [if_neg (by rw [hsame]; exact hne), hsame, hnone]
  · intro s sid hnot
    unfold handleCloseSession
    cases hinfo : getInfo s sid with
    | none => rfl
    | some info =>
      cases info with
      | playerInfo c q => rfl
      | dmInfo code =>
        dsimp only
        cases hsess : alookup code s.sessions with
        | none => rfl
        | some sess =>
          dsimp only
          rw [if_neg (hnot code sess hinfo hsess)]

theorem c6_witness :
    alookup "ABC" (handleCloseSession trA4 0).1.sessions = none ∧
      (handleCloseSession trA4 0).2 =
        endLoopEvents [("c-7-1", 1)] "The DM closed the session." ∧
      getInfo (handleCloseSession trA4 0).1 1 = none ∧
      getInfo (handleCloseSession trA4 0).1 0 = none ∧
      handleJoinSession (handleCloseSession trA4 0).1 1 (JVal.vStr "abc") 9 =
        ((handleCloseSession trA4 0).1,
          (safeSend (handleCloseSession trA4 0).1 1 (OutMsg.sessionError
            "Session not found. Ask your DM for a new code.")).2) ∧
      handleCloseSession trA4 1 = (trA4, []) := by
  have happ := c6_close_session.1 trA4 0 "ABC"
    { code := "ABC", dm := 0, players := [("c-7-1", 1)] }
    (by decide) (by decide) rfl rfl (by decide) (by decide) (by decide)
  refine ⟨happ.1, happ.2.1, ?_, happ.2.2.2.1,
    happ.2.2.2.2 1 9 (JVal.vStr "abc") (by decide), ?_⟩
  · exact happ.2.2.1 ("c-7-1", 1) (by decide)
  · refine c6_close_session.2 trA4 1 ?_
    intro code sess h
    rw [show getInfo trA4 1 = some (CInfo.playerInfo "ABC" "c-7-1") from by decide] at h
    simp at h

/-! ## Claim C7 -/

theorem alookup_mem_keys {α β : Type} [DecidableEq α] {l : List (α × β)} {k : α}
    {v : β} (h : alookup k l = some v) : k ∈ l.map Prod.fst := by
  by_contra hn
  rw [← alookup_eq_none] at hn
  rw [h] at hn
  simp at hn

theorem sockAlive_other_updSock {s : Srv} {sid j : Nat} (f : Sock → Sock)
    (h : j ≠ sid) : sockAlive (updSock s sid f) j = sockAlive s j := by
  unfold sockAlive
  rw [getSock_updSock_other _ h]

theorem getInfo_doTerminate (s : Srv) (sid j : Nat) :
    getInfo (doTerminate s sid).1 j = getInfo s j :=
  getInfo_updSock s sid j _ (fun _ => rfl)

theorem sockOpen_doTerminate_self {s : Srv} {sid : Nat}
    (h : (getSock s sid).isSome = true) :
    sockOpen (doTerminate s sid).1 sid = false := by
  unfold doTerminate sockOpen
  rw [getSock_updSock, if_pos rfl]
  cases hk : getSock s sid with
  | none => rw [hk] at h; simp at h
  | some k => simp

theorem tickLoop_append (K1 K2 : List Nat) (acc : Srv × List Event) :
    tickLoop acc (K1 ++ K2) = tickLoop (tickLoop acc K1) K2 := by
  induction K1 generalizing acc with
  | nil => rfl
  | cons j rest ih => exact ih (tickOne acc j)

theorem count_send_map_ping (K : List Nat) (x : Nat) (m : OutMsg) :
    (K.map Event.ping).count (Event.send x m) = 0 := by
  induction K with
  | nil => rfl
  | cons j rest ih => simp [List.count_cons, ih]


/-! ## Claim C7 -/

theorem alookup_cons_ne {α β : Type} [DecidableEq α] {p : α × β} {c : α}
    (rest : List (α × β)) (h : ¬ p.1 = c) : alookup c (p :: rest) = alookup c rest := by
  show (if p.1 = c then some p.2 else alookup c rest) = alookup c rest
  rw [if_neg h]

theorem alookup_cons_eq {α β : Type} [DecidableEq α] {p : α × β} {c : α}
    (rest : List (α × β)) (h : p.1 = c) : alookup c (p :: rest) = some p.2 := by
  show (if p.1 = c then some p.2 else alookup c rest) = some p.2
  rw [if_pos h]

theorem alookup_some_mem {α β : Type} [DecidableEq α] {l : List (α × β)} {k : α}
    {v : β} (h : alookup k l = some v) : (k, v) ∈ l := by
  induction l with
  | nil => simp [alookup] at h
  | cons p rest ih =>
    by_cases hp : p.1 = k
    · rw [alookup_cons_eq _ hp] at h
      injection h with h2
      have hpe : (k, v) = p := by
        obtain ⟨a, b⟩ := p
        simp only at hp h2
        rw [hp, h2]
      rw [hpe]
      exact List.mem_cons_self p rest
    · rw [alookup_cons_ne _ hp] at h
      exact List.mem_cons_of_mem p (ih h)

theorem alookup_mapSet_other {α β : Type} [DecidableEq α] (l : List (α × β))
    (k c : α) (v : β) (h : c ≠ k) : alookup c (mapSet l k v) = alookup c l := by
  induction l with
  | nil =>
    show alookup c [(k, v)] = none
    rw [alookup_cons_ne _ (fun he : (k, v).1 = c => h he.symm)]
    rfl
  | cons p rest ih =>
    unfold mapSet
    by_cases hp : p.1 = k
    · rw [if_pos hp]
      rw [alookup_cons_ne (p := (k, v)) _ (fun he => h he.symm),
        alookup_cons_ne _ (show ¬ p.1 = c by rw [hp]; exact fun he => h he.symm)]
    · rw [if_neg hp]
      by_cases hc : p.1 = c
      · rw [alookup_cons_eq _ hc, alookup_cons_eq _ hc]
      · rw [alookup_cons_ne _ hc, alookup_cons_ne _ hc]
        exact ih

theorem alookup_mapDelete {α β : Type} [DecidableEq α] (l : List (α × β)) (k c : α) :
    alookup c (mapDelete l k) = if c = k then none else alookup c l := by
  by_cases hc : c = k
  · rw [if_pos hc, hc]
    exact alookup_mapDelete_self l k
  · rw [if_neg hc]
    induction l with
    | nil => rfl
    | cons p rest ih =>
      by_cases hp : p.1 = k
      · rw [show mapDelete (p :: rest) k = mapDelete rest k from by
          simp [mapDelete, List.filter_cons, hp]]
        rw [ih, alookup_cons_ne _ (fun he => hc (he.symm.trans hp))]
      · rw [show mapDelete (p :: rest) k = p :: mapDelete rest k from by
          simp [mapDelete, List.filter_cons, hp]]
        by_cases hc2 : p.1 = c
        · rw [alookup_cons_eq _ hc2, alookup_cons_eq _ hc2]
        · rw [alookup_cons_ne _ hc2, alookup_cons_ne _ hc2, ih]

theorem mapDelete_mem {α β : Type} [DecidableEq α] {l : List (α × β)} {k : α}
    {p : α × β} (h : p ∈ mapDelete l k) : p ∈ l :=
  (mapDelete_sublist l k).subset h

theorem mapDelete_key_ne {α β : Type} [DecidableEq α] {l : List (α × β)} {k : α}
    {p : α × β} (h : p ∈ mapDelete l k) : p.1 ≠ k := by
  have := List.of_mem_filter h
  simpa using this

theorem mem_split_first {α : Type} {a : α} {l : List α} (h : a ∈ l) :
    ∃ l1 l2, l = l1 ++ a :: l2 ∧ a ∉ l1 := by
  induction l with
  | nil => simp at h
  | cons b rest ih =>
    by_cases hb : b = a
    · exact ⟨[], rest, by rw [hb]; rfl, by simp⟩
    · have hm : a ∈ rest := by
        rcases List.mem_cons.mp h with he | hm
        · exact absurd he.symm hb
        · exact hm
      obtain ⟨l1, l2, he, hn⟩ := ih hm
      refine ⟨b :: l1, l2, by rw [he]; rfl, ?_⟩
      intro hmem
      rcases List.mem_cons.mp hmem with he2 | hm2
      · exact hb he2.symm
      · exact hn hm2

theorem alookup_singleton {α β : Type} [DecidableEq α] {k c : α} {v x : β}
    (h : alookup c [(k, v)] = some x) : k = c ∧ x = v := by
  by_cases hc : (k, v).1 = c
  · rw [alookup_cons_eq _ hc] at h
    injection h with h2
    exact ⟨hc, h2.symm⟩
  · rw [alookup_cons_ne _ hc] at h
    simp [alookup] at h

theorem keys_nodup_eq {α β : Type} {l : List (α × β)}
    (hnd : (l.map Prod.fst).Nodup) {k : α} {v1 v2 : β}
    (h1 : (k, v1) ∈ l) (h2 : (k, v2) ∈ l) : v1 = v2 := by
  induction l with
  | nil => simp at h1
  | cons p rest ih =>
    simp only [List.map_cons, List.nodup_cons] at hnd
    rcases List.mem_cons.mp h1 with he1 | hm1 <;> rcases List.mem_cons.mp h2 with he2 | hm2
    · have h3 := he2.trans he1.symm
      injection h3 with h4 h5
      exact h5.symm
    · have hk2 : k ∈ rest.map Prod.fst := by
        have := List.mem_map_of_mem Prod.fst hm2
        simpa using this
      exact absurd (by rw [← he1]; exact hk2) hnd.1
    · have hk1 : k ∈ rest.map Prod.fst := by
        have := List.mem_map_of_mem Prod.fst hm1
        simpa using this
      exact absurd (by rw [← he2]; exact hk1) hnd.1
    · exact ih hnd.2 hm1 hm2

theorem mem_sessionsIds {l : List (String × Session)} {c : String} {sess : Session}
    (h : alookup c l = some sess) {q : String}
    (hq : q ∈ sess.players.map Prod.fst) : q ∈ sessionsIds l := by
  induction l with
  | nil => simp [alookup] at h
  | cons p rest ih =>
    unfold sessionsIds
    by_cases hp : p.1 = c
    · rw [alookup_cons_eq _ hp] at h
      injection h with h2
      rw [h2]
      exact List.mem_append_left _ hq
    · rw [alookup_cons_ne _ hp] at h
      exact List.mem_append_right _ (ih h)

theorem allIds_nodup_of_reach {s : Srv} (h : Reach s) : (allPlayerIds s).Nodup := by
  have hinv := idInv_reach h
  exact List.Pairwise.imp (fun hab he => hab (by rw [he])) hinv.1

/-- Over a reachable state, a registered participant id pins down its entry:
every `pid`-keyed entry anywhere in the table is the one in `code` storing
`sid` (ids are generated fresh, so they are registered at most once). -/
theorem pid_unique_of_reach {s : Srv} {code pid : String} {sess : Session} {sid : Nat}
    (hr : Reach s) (hsess : alookup code s.sessions = some sess)
    (hpid : alookup pid sess.players = some sid) : PidUnique s code pid sid := by
  have hnd : (allPlayerIds s).Nodup := allIds_nodup_of_reach hr
  obtain ⟨l1, l2, hsplit, hl1⟩ := alookup_split hsess
  have hids : allPlayerIds s =
      sessionsIds l1 ++ (sess.players.map Prod.fst ++ sessionsIds l2) := by
    show sessionsIds s.sessions = _
    rw [hsplit, sessionsIds_append]
    rfl
  rw [hids, List.nodup_append] at hnd
  obtain ⟨hnd1, hnd23, hdisj1⟩ := hnd
  rw [List.nodup_append] at hnd23
  obtain ⟨hndmid, hnd2, hdisj2⟩ := hnd23
  have hpidmem : pid ∈ sess.players.map Prod.fst := alookup_mem_keys hpid
  intro c2 sess2 h2 p hp hpk
  by_cases hc : c2 = code
  · refine ⟨hc, ?_⟩
    rw [hc, hsess] at h2
    injection h2 with h3
    have hm1 : (pid, sid) ∈ sess.players := alookup_some_mem hpid
    have hm2 : (pid, p.2) ∈ sess.players := by
      rw [h3, ← hpk, Prod.mk.eta]
      exact hp
    exact (keys_nodup_eq hndmid hm1 hm2).symm
  · exfalso
    rw [hsplit, alookup_append] at h2
    have hqmem : pid ∈ sess2.players.map Prod.fst := by
      rw [← hpk]
      exact List.mem_map_of_mem Prod.fst hp
    cases ha1 : alookup c2 l1 with
    | some x =>
      rw [ha1] at h2
      dsimp only at h2
      injection h2 with h3
      rw [h3] at ha1
      exact hdisj1 (mem_sessionsIds ha1 hqmem) (List.mem_append_left _ hpidmem)
    | none =>
      rw [ha1] at h2
      dsimp only at h2
      rw [alookup_cons_ne _ (fun he : (code, sess).1 = c2 => hc he.symm)] at h2
      exact hdisj2 hpidmem (mem_sessionsIds h2 hqmem)

theorem sockOpen_doClose_any (s : Srv) (sid : Nat) :
    sockOpen (doClose s sid).1 sid = false := by
  unfold doClose sockOpen
  rw [getSock_updSock, if_pos rfl]
  cases getSock s sid <;> simp

theorem sockOpen_doTerminate_any (s : Srv) (sid : Nat) :
    sockOpen (doTerminate s sid).1 sid = false := by
  unfold doTerminate sockOpen
  rw [getSock_updSock, if_pos rfl]
  cases getSock s sid <;> simp

theorem sockAlive_clear_self (s : Srv) (sid : Nat) :
    sockAlive (updSock s sid (fun x => { x with isAlive := false })) sid = false := by
  unfold sockAlive
  rw [getSock_updSock, if_pos rfl]
  cases getSock s sid <;> simp

theorem detachFinish_silent (r1 : Srv × List Event) (sid : Nat) :
    detachFinish r1 sid true = (setInfo r1.1 sid none, r1.2) := by
  unfold detachFinish
  dsimp only
  rw [if_neg (by simp)]

theorem sockOpen_doTerminate_other {s : Srv} {sid j : Nat} (h : j ≠ sid) :
    sockOpen (doTerminate s sid).1 j = sockOpen s j := by
  unfold doTerminate sockOpen
  rw [getSock_updSock_other _ h]

theorem sockAlive_setSessions (s : Srv) (l : List (String × Session)) (j : Nat) :
    sockAlive { s with sessions := l } j = sockAlive s j := rfl

theorem sockAlive_doClose (s : Srv) (sid j : Nat) :
    sockAlive (doClose s sid).1 j = sockAlive s j :=
  sockAlive_updSock s sid j _ (fun _ => rfl)

theorem sockAlive_setInfo (s : Srv) (sid : Nat) (i : Option CInfo) (j : Nat) :
    sockAlive (setInfo s sid i) j = sockAlive s j :=
  sockAlive_updSock s sid j _ (fun _ => rfl)

theorem sockAlive_doTerminate (s : Srv) (sid j : Nat) :
    sockAlive (doTerminate s sid).1 j = sockAlive s j :=
  sockAlive_updSock s sid j _ (fun _ => rfl)

theorem getInfo_clearAlive (s : Srv) (sid j : Nat) :
    getInfo (updSock s sid (fun k => { k with isAlive := false })) j = getInfo s j :=
  getInfo_updSock s sid j _ (fun _ => rfl)

theorem sockOpen_clearAlive (s : Srv) (sid j : Nat) :
    sockOpen (updSock s sid (fun k => { k with isAlive := false })) j = sockOpen s j :=
  sockOpen_updSock s sid j _ (fun _ => rfl)

/-- The three things `detachClient` can do to the session table: leave it
alone, run `endSession` for a still-registered DM (deleting by the found
session's `code` field), or replace a still-registered player's session by
one lacking its entry. -/
theorem detach_sessions_cases (st : Srv) (j : Nat) (r : Option String) (sil : Bool) :
    (detachClient st j r sil).1.sessions = st.sessions ∨
      (∃ cj sessj, getInfo st j = some (CInfo.dmInfo cj) ∧
        alookup cj st.sessions = some sessj ∧ sessj.dm = j ∧
        (detachClient st j r sil).1.sessions = mapDelete st.sessions sessj.code) ∨
      ∃ cj sessj q, getInfo st j = some (CInfo.playerInfo cj q) ∧
        alookup cj st.sessions = some sessj ∧ alookup q sessj.players = some j ∧
        (detachClient st j r sil).1.sessions =
          mapSet st.sessions cj { sessj with players := mapDelete sessj.players q } := by
  cases hinfo : getInfo st j with
  | none =>
    left
    unfold detachClient
    rw [hinfo]
  | some info =>
    have hcl : detachClient st j r sil = detachFinish (detachBody st j r info) j sil := by
      unfold detachClient
      rw [hinfo]
    rw [hcl, detachFinish_sessions]
    cases info with
    | dmInfo cj =>
      unfold detachBody
      dsimp only
      cases halo : alookup cj st.sessions with
      | none => exact Or.inl rfl
      | some sessj =>
        dsimp only
        by_cases hdm : sessj.dm = j
        · rw [if_pos hdm]
          refine Or.inr (Or.inl ⟨cj, sessj, rfl, halo, hdm, ?_⟩)
          show (endSession st sessj _).1.sessions = _
          unfold endSession
          rw [endLoop_sessions]
        · rw [if_neg hdm]
          exact Or.inl rfl
    | playerInfo cj q =>
      unfold detachBody
      dsimp only
      cases halo : alookup cj st.sessions with
      | none => exact Or.inl rfl
      | some sessj =>
        dsimp only
        by_cases hq : alookup q sessj.players = some j
        · rw [if_pos hq]
          refine Or.inr (Or.inr ⟨cj, sessj, q, rfl, halo, hq, ?_⟩)
          rw [fst_ite_pair]
        · rw [if_neg hq]
          exact Or.inl rfl

/-- The three arms of one heartbeat turn: unknown socket (no-op), alive
(flag cleared and pinged), dead (silent timeout detach then terminate). -/
theorem tickOne_cases (acc : Srv × List Event) (j : Nat) :
    (getSock acc.1 j = none ∧ tickOne acc j = acc) ∨
      (∃ k2, getSock acc.1 j = some k2 ∧ k2.isAlive = true ∧
        tickOne acc j = (updSock acc.1 j (fun x => { x with isAlive := false }),
          acc.2 ++ [Event.ping j])) ∨
      ∃ k2, getSock acc.1 j = some k2 ∧ k2.isAlive = false ∧
        tickOne acc j =
          ((doTerminate (detachClient acc.1 j (some "Connection timed out.") true).1 j).1,
            acc.2 ++ (detachClient acc.1 j (some "Connection timed out.") true).2 ++
              [Event.terminate j]) := by
  unfold tickOne
  dsimp only
  cases hg : getSock acc.1 j with
  | none => exact Or.inl ⟨rfl, rfl⟩
  | some k2 =>
    dsimp only
    by_cases ha : k2.isAlive = false
    · rw [if_pos ha]
      exact Or.inr (Or.inr ⟨k2, rfl, ha, rfl⟩)
    · rw [if_neg ha]
      refine Or.inr (Or.inl ⟨k2, rfl, ?_, rfl⟩)
      revert ha
      cases k2.isAlive <;> simp

/-! ## Component preservation through the teardown operations -/

theorem endLoop_info_none_pres (st : Srv) (l : List (String × Nat)) (r : String)
    (x : Nat) (h : getInfo st x = none) : getInfo (endLoop st l r).1 x = none := by
  induction l generalizing st with
  | nil => exact h
  | cons p rest ih =>
    show getInfo (endLoop (setInfo (doClose st p.2).1 p.2 none) rest r).1 x = none
    exact ih _ (getInfo_setInfo_none_pres _ _ _ (by rw [getInfo_doClose]; exact h))

theorem endLoop_open_false_pres (st : Srv) (l : List (String × Nat)) (r : String)
    (x : Nat) (h : sockOpen st x = false) : sockOpen (endLoop st l r).1 x = false := by
  induction l generalizing st with
  | nil => exact h
  | cons p rest ih =>
    show sockOpen (endLoop (setInfo (doClose st p.2).1 p.2 none) rest r).1 x = false
    apply ih
    rw [sockOpen_setInfo]
    by_cases hx : x = p.2
    · rw [hx]
      exact sockOpen_doClose_any _ _
    · rw [sockOpen_doClose_other hx]
      exact h

theorem endLoop_alive (st : Srv) (l : List (String × Nat)) (r : String) (x : Nat) :
    sockAlive (endLoop st l r).1 x = sockAlive st x := by
  induction l generalizing st with
  | nil => rfl
  | cons p rest ih =>
    show sockAlive (endLoop (setInfo (doClose st p.2).1 p.2 none) rest r).1 x = _
    rw [ih, sockAlive_setInfo, sockAlive_doClose]

/-- The teardown loop clears the binding of every socket it visits, with no
distinctness assumption on the visited list. -/
theorem endLoop_getInfo_mem_none (st : Srv) (l : List (String × Nat)) (r : String)
    (x : Nat) (hx : ∃ p ∈ l, p.2 = x) : getInfo (endLoop st l r).1 x = none := by
  induction l generalizing st with
  | nil => simp at hx
  | cons p rest ih =>
    obtain ⟨p0, hp0, hpv⟩ := hx
    show getInfo (endLoop (setInfo (doClose st p.2).1 p.2 none) rest r).1 x = none
    rcases List.mem_cons.mp hp0 with he | hm
    · have hpx : p.2 = x := by rw [← he]; exact hpv
      apply endLoop_info_none_pres
      rw [← hpx]
      exact getInfo_setInfo_none_self _ _
    · exact ih _ ⟨p0, hm, hpv⟩

theorem detachBody_info_none_pres (st : Srv) (j : Nat) (r : Option String)
    (info : CInfo) (x : Nat) (h : getInfo st x = none) :
    getInfo (detachBody st j r info).1 x = none := by
  unfold detachBody
  cases info with
  | dmInfo cj =>
    dsimp only
    cases halo : alookup cj st.sessions with
    | none => exact h
    | some sessj =>
      dsimp only
      split
      · unfold endSession
        apply endLoop_info_none_pres
        rw [getInfo_setSessions]
        exact h
      · exact h
  | playerInfo cj q =>
    dsimp only
    cases halo : alookup cj st.sessions with
    | none => exact h
    | some sessj =>
      dsimp only
      split
      · rw [fst_ite_pair, getInfo_setSessions]
        exact h
      · exact h

theorem detachFinish_info_none_pres (r1 : Srv × List Event) (j : Nat) (sil : Bool)
    (x : Nat) (h : getInfo r1.1 x = none) :
    getInfo (detachFinish r1 j sil).1 x = none := by
  unfold detachFinish
  dsimp only
  split
  · rw [getInfo_doClose]
    exact getInfo_setInfo_none_pres _ _ _ h
  · exact getInfo_setInfo_none_pres _ _ _ h

theorem detach_info_none_pres (st : Srv) (j : Nat) (r : Option String) (sil : Bool)
    (x : Nat) (h : getInfo st x = none) :
    getInfo (detachClient st j r sil).1 x = none := by
  unfold detachClient
  cases hinfo : getInfo st j with
  | none => exact h
  | some info =>
    exact detachFinish_info_none_pres _ _ _ _ (detachBody_info_none_pres _ _ _ _ _ h)

theorem detachBody_open_false_pres (st : Srv) (j : Nat) (r : Option String)
    (info : CInfo) (x : Nat) (h : sockOpen st x = false) :
    sockOpen (detachBody st j r info).1 x = false := by
  unfold detachBody
  cases info with
  | dmInfo cj =>
    dsimp only
    cases halo : alookup cj st.sessions with
    | none => exact h
    | some sessj =>
      dsimp only
      split
      · unfold endSession
        apply endLoop_open_false_pres
        rw [sockOpen_setSessions]
        exact h
      · exact h
  | playerInfo cj q =>
    dsimp only
    cases halo : alookup cj st.sessions with
    | none => exact h
    | some sessj =>
      dsimp only
      split
      · rw [fst_ite_pair, sockOpen_setSessions]
        exact h
      · exact h

theorem detachFinish_open_false_pres (r1 : Srv × List Event) (j : Nat) (sil : Bool)
    (x : Nat) (h : sockOpen r1.1 x = false) :
    sockOpen (detachFinish r1 j sil).1 x = false := by
  unfold detachFinish
  dsimp only
  split
  · by_cases hx : x = j
    · rw [hx]
      exact sockOpen_doClose_any _ _
    · rw [sockOpen_doClose_other hx, sockOpen_setInfo]
      exact h
  · rw [sockOpen_setInfo]
    exact h

theorem detach_open_false_pres (st : Srv) (j : Nat) (r : Option String) (sil : Bool)
    (x : Nat) (h : sockOpen st x = false) :
    sockOpen (detachClient st j r sil).1 x = false := by
  unfold detachClient
  cases hinfo : getInfo st j with
  | none => exact h
  | some info =>
    exact detachFinish_open_false_pres _ _ _ _ (detachBody_open_false_pres _ _ _ _ _ h)

theorem detachBody_alive (st : Srv) (j : Nat) (r : Option String) (info : CInfo)
    (x : Nat) : sockAlive (detachBody st j r info).1 x = sockAlive st x := by
  unfold detachBody
  cases info with
  | dmInfo cj =>
    dsimp only
    cases halo : alookup cj st.sessions with
    | none => rfl
    | some sessj =>
      dsimp only
      split
      · unfold endSession
        rw [endLoop_alive]
        exact sockAlive_setSessions _ _ _
      · rfl
  | playerInfo cj q =>
    dsimp only
    cases halo : alookup cj st.sessions with
    | none => rfl
    | some sessj =>
      dsimp only
      split
      · rw [fst_ite_pair]
        exact sockAlive_setSessions _ _ _
      · rfl

theorem detachFinish_alive (r1 : Srv × List Event) (j : Nat) (sil : Bool) (x : Nat) :
    sockAlive (detachFinish r1 j sil).1 x = sockAlive r1.1 x := by
  unfold detachFinish
  dsimp only
  split
  · rw [sockAlive_doClose, sockAlive_setInfo]
  · rw [sockAlive_setInfo]

theorem detach_alive (st : Srv) (j : Nat) (r : Option String) (sil : Bool) (x : Nat) :
    sockAlive (detachClient st j r sil).1 x = sockAlive st x := by
  unfold detachClient
  cases hinfo : getInfo st j with
  | none => rfl
  | some info =>
    rw [detachFinish_alive, detachBody_alive]

theorem detachBody_isSome (st : Srv) (j : Nat) (r : Option String) (info : CInfo)
    (x : Nat) :
    (getSock (detachBody st j r info).1 x).isSome = (getSock st x).isSome := by
  unfold detachBody
  cases info with
  | dmInfo cj =>
    dsimp only
    cases halo : alookup cj st.sessions with
    | none => rfl
    | some sessj =>
      dsimp only
      split
      · unfold endSession
        rw [endLoop_getSock_isSome]
        rfl
      · rfl
  | playerInfo cj q =>
    dsimp only
    cases halo : alookup cj st.sessions with
    | none => rfl
    | some sessj =>
      dsimp only
      split
      · rw [fst_ite_pair, getSock_setSessions]
      · rfl

theorem detachFinish_isSome (r1 : Srv × List Event) (j : Nat) (sil : Bool) (x : Nat) :
    (getSock (detachFinish r1 j sil).1 x).isSome = (getSock r1.1 x).isSome := by
  unfold detachFinish
  dsimp only
  split
  · show (getSock (updSock (setInfo r1.1 j none) j
      (fun k => { k with readyOpen := false })) x).isSome = _
    rw [getSock_isSome_updSock]
    show (getSock (updSock r1.1 j (fun k => { k with clientInfo := none })) x).isSome = _
    rw [getSock_isSome_updSock]
  · show (getSock (updSock r1.1 j (fun k => { k with clientInfo := none })) x).isSome = _
    rw [getSock_isSome_updSock]

theorem detach_isSome (st : Srv) (j : Nat) (r : Option String) (sil : Bool) (x : Nat) :
    (getSock (detachClient st j r sil).1 x).isSome = (getSock st x).isSome := by
  unfold detachClient
  cases hinfo : getInfo st j with
  | none => rfl
  | some info =>
    rw [detachFinish_isSome, detachBody_isSome]

theorem tickOne_info_none_pres (acc : Srv × List Event) (j x : Nat)
    (h : getInfo acc.1 x = none) : getInfo (tickOne acc j).1 x = none := by
  rcases tickOne_cases acc j with ⟨hn, he⟩ | ⟨k2, hg, ha, he⟩ | ⟨k2, hg, ha, he⟩ <;> rw [he]
  · exact h
  · exact (getInfo_clearAlive _ _ _).trans h
  · exact (getInfo_doTerminate _ _ _).trans (detach_info_none_pres _ _ _ _ _ h)

theorem tickOne_open_false_pres (acc : Srv × List Event) (j x : Nat)
    (h : sockOpen acc.1 x = false) : sockOpen (tickOne acc j).1 x = false := by
  rcases tickOne_cases acc j with ⟨hn, he⟩ | ⟨k2, hg, ha, he⟩ | ⟨k2, hg, ha, he⟩ <;> rw [he]
  · exact h
  · exact (sockOpen_clearAlive _ _ _).trans h
  · by_cases hx : x = j
    · rw [hx]
      exact sockOpen_doTerminate_any _ _
    · exact (sockOpen_doTerminate_other hx).trans (detach_open_false_pres _ _ _ _ _ h)

theorem tickOne_alive_false_pres (acc : Srv × List Event) (j x : Nat)
    (h : sockAlive acc.1 x = false) : sockAlive (tickOne acc j).1 x = false := by
  rcases tickOne_cases acc j with ⟨hn, he⟩ | ⟨k2, hg, ha, he⟩ | ⟨k2, hg, ha, he⟩ <;> rw [he]
  · exact h
  · by_cases hx : x = j
    · rw [hx]
      exact sockAlive_clear_self _ _
    · exact (sockAlive_other_updSock _ hx).trans h
  · exact (sockAlive_doTerminate _ _ _).trans ((detach_alive _ _ _ _ _).trans h)

theorem tickOne_isSome (acc : Srv × List Event) (j x : Nat) :
    (getSock (tickOne acc j).1 x).isSome = (getSock acc.1 x).isSome := by
  rcases tickOne_cases acc j with ⟨hn, he⟩ | ⟨k2, hg, ha, he⟩ | ⟨k2, hg, ha, he⟩ <;> rw [he]
  · exact getSock_isSome_updSock _ _ _ _
  · exact (getSock_isSome_updSock _ _ _ _).trans (detach_isSome _ _ _ _ _)

/-- Table predicates that look at every registered session and survive the
removal of player entries survive a whole `detachClient`. -/
theorem sessionPred_detach (P : String → Session → Prop) (st : Srv) (j : Nat)
    (r : Option String) (sil : Bool)
    (hmono : ∀ c sess q, P c sess → P c { sess with players := mapDelete sess.players q })
    (h : ∀ c2 sess2, alookup c2 st.sessions = some sess2 → P c2 sess2) :
    ∀ c2 sess2, alookup c2 (detachClient st j r sil).1.sessions = some sess2 →
      P c2 sess2 := by
  intro c2 sess2 h2
  rcases detach_sessions_cases st j r sil with he | ⟨cj, sessj, hi, ha, hd, he⟩ |
      ⟨cj, sessj, q, hi, ha, hq, he⟩
  · rw [he] at h2
    exact h c2 sess2 h2
  · rw [he, alookup_mapDelete] at h2
    by_cases hc : c2 = sessj.code
    · rw [if_pos hc] at h2
      exact absurd h2 (by simp)
    · rw [if_neg hc] at h2
      exact h c2 sess2 h2
  · rw [he] at h2
    by_cases hc : c2 = cj
    · rw [hc, alookup_mapSet_self] at h2
      injection h2 with h3
      rw [← h3, hc]
      exact hmono cj sessj q (h cj sessj ha)
    · rw [alookup_mapSet_other _ _ _ _ hc] at h2
      exact h c2 sess2 h2

theorem sessionPred_tickOne (P : String → Session → Prop) (acc : Srv × List Event)
    (j : Nat)
    (hmono : ∀ c sess q, P c sess → P c { sess with players := mapDelete sess.players q })
    (h : ∀ c2 sess2, alookup c2 acc.1.sessions = some sess2 → P c2 sess2) :
    ∀ c2 sess2, alookup c2 (tickOne acc j).1.sessions = some sess2 → P c2 sess2 := by
  intro c2 sess2 h2
  rcases tickOne_cases acc j with ⟨hn, he⟩ | ⟨k2, hg, ha, he⟩ | ⟨k2, hg, ha, he⟩
  · rw [he] at h2
    exact h c2 sess2 h2
  · rw [he] at h2
    exact h c2 sess2 h2
  · rw [he] at h2
    exact sessionPred_detach P acc.1 j _ true hmono h c2 sess2 h2

theorem detach_code_absent (st : Srv) (j : Nat) (r : Option String) (sil : Bool)
    (code : String) (h : alookup code st.sessions = none) :
    alookup code (detachClient st j r sil).1.sessions = none := by
  rcases detach_sessions_cases st j r sil with he | ⟨cj, sessj, hi, ha, hd, he⟩ |
      ⟨cj, sessj, q, hi, ha, hq, he⟩
  · rw [he]
    exact h
  · rw [he, alookup_mapDelete]
    by_cases hc : code = sessj.code
    · rw [if_pos hc]
    · rw [if_neg hc]
      exact h
  · rw [he]
    have hc : code ≠ cj := by
      intro hce
      rw [hce] at h
      rw [h] at ha
      exact Option.noConfusion ha
    rw [alookup_mapSet_other _ _ _ _ hc]
    exact h

theorem tickOne_code_absent (acc : Srv × List Event) (j : Nat) (code : String)
    (h : alookup code acc.1.sessions = none) :
    alookup code (tickOne acc j).1.sessions = none := by
  rcases tickOne_cases acc j with ⟨hn, he⟩ | ⟨k2, hg, ha, he⟩ | ⟨k2, hg, ha, he⟩ <;> rw [he]
  · exact h
  · exact h
  · exact detach_code_absent _ _ _ _ _ h

theorem tickLoop_pres (I : Srv × List Event → Prop)
    (hstep : ∀ acc j, I acc → I (tickOne acc j)) (sids : List Nat) :
    ∀ acc : Srv × List Event, I acc → I (tickLoop acc sids) := by
  induction sids with
  | nil => exact fun _ h => h
  | cons j rest ih => exact fun acc h => ih (tickOne acc j) (hstep acc j h)

/-! ## What the teardown traces can contain -/

theorem mem_safeSend {s : Srv} {sid : Nat} {m : OutMsg} {e : Event}
    (h : e ∈ (safeSend s sid m).2) : e = Event.send sid m := by
  unfold safeSend at h
  split at h <;> simp at h
  exact h

theorem count_append_le_one {ev1 ev2 : List Event} {e : Event}
    (h1 : ev1.count e ≤ 1) (h2 : e ∉ ev2) : (ev1 ++ ev2).count e ≤ 1 := by
  rw [List.count_append, List.count_eq_zero.mpr h2]
  simpa using h1

theorem endLoop_playerLeft_count (st : Srv) (l : List (String × Nat)) (r : String)
    (x : Nat) (q : String) :
    (endLoop st l r).2.count (Event.send x (OutMsg.playerLeft q)) = 0 := by
  rw [List.count_eq_zero]
  intro hmem
  rcases endLoop_events_shape st l r _ hmem with ⟨y, m, he⟩ | ⟨y, he⟩ <;> simp at he

/-- A `player-left` notice in a `detachClient` trace pins down the detach:
the socket was bound as that participant, registered under its id, and the
notice went to its session's `dm`. -/
theorem detach_playerLeft_mem (st : Srv) (j : Nat) (r : Option String) (sil : Bool)
    (x : Nat) (q : String)
    (h : Event.send x (OutMsg.playerLeft q) ∈ (detachClient st j r sil).2) :
    ∃ cj sessj, getInfo st j = some (CInfo.playerInfo cj q) ∧
      alookup cj st.sessions = some sessj ∧ alookup q sessj.players = some j ∧
      sessj.dm = x := by
  unfold detachClient at h
  cases hinfo : getInfo st j with
  | none =>
    rw [hinfo] at h
    simp at h
  | some info =>
    rw [hinfo] at h
    have hbody : Event.send x (OutMsg.playerLeft q) ∈ (detachBody st j r info).2 := by
      unfold detachFinish at h
      dsimp only at h
      split at h
      · simp only [List.mem_append] at h
        rcases h with h | h
        · exact h
        · unfold doClose at h
          simp at h
      · exact h
    unfold detachBody at hbody
    cases info with
    | dmInfo cj =>
      dsimp only at hbody
      cases halo : alookup cj st.sessions with
      | none =>
        rw [halo] at hbody
        simp at hbody
      | some sessj =>
        rw [halo] at hbody
        dsimp only at hbody
        split at hbody
        · exfalso
          unfold endSession at hbody
          rcases endLoop_events_shape _ _ _ _ hbody with ⟨y, m, he⟩ | ⟨y, he⟩ <;> simp at he
        · simp at hbody
    | playerInfo cj q0 =>
      dsimp only at hbody
      cases halo : alookup cj st.sessions with
      | none =>
        rw [halo] at hbody
        simp at hbody
      | some sessj =>
        rw [halo] at hbody
        dsimp only at hbody
        split at hbody
        · rename_i hguard
          split at hbody
          · have hev := mem_safeSend hbody
            injection hev with h1 h2
            injection h2 with h3
            refine ⟨cj, sessj, ?_, halo, ?_, h1.symm⟩
            · rw [h3]
            · rw [h3]
              exact hguard
          · simp at hbody
        · simp at hbody

/-- One `detachClient` emits at most one `player-left` notice of any given
shape. -/
theorem detach_playerLeft_count (st : Srv) (j : Nat) (r : Option String) (sil : Bool)
    (x : Nat) (q : String) :
    (detachClient st j r sil).2.count (Event.send x (OutMsg.playerLeft q)) ≤ 1 := by
  unfold detachClient
  cases hinfo : getInfo st j with
  | none => simp
  | some info =>
    have hbody : (detachBody st j r info).2.count (Event.send x (OutMsg.playerLeft q)) ≤ 1 := by
      unfold detachBody
      cases info with
      | dmInfo cj =>
        dsimp only
        cases halo : alookup cj st.sessions with
        | none => simp
        | some sessj =>
          dsimp only
          split
          · unfold endSession
            rw [endLoop_playerLeft_count]
            exact Nat.zero_le 1
          · simp
      | playerInfo cj q0 =>
        dsimp only
        cases halo : alookup cj st.sessions with
        | none => simp
        | some sessj =>
          dsimp only
          split
          · split
            · refine le_trans (List.count_le_length _ _) ?_
              unfold safeSend
              split <;> simp
            · simp
          · simp
    unfold detachFinish
    dsimp only
    split
    · exact count_append_le_one hbody (by
        intro hm
        unfold doClose at hm
        simp at hm)
    · exact hbody

/-! ## `session-closed` notices are never duplicated

Each such notice is immediately followed by a close of its target, and no
heartbeat-tick operation reopens a socket, so a second send to the same
target fails. -/

theorem endLoop_sclosed_inv (st : Srv) (l : List (String × Nat)) (r : String)
    (ev : List Event)
    (h : ∀ x m, (ev.count (Event.send x (OutMsg.sessionClosed m)) ≤ 1) ∧
      (Event.send x (OutMsg.sessionClosed m) ∈ ev → sockOpen st x = false)) :
    ∀ x m, ((ev ++ (endLoop st l r).2).count (Event.send x (OutMsg.sessionClosed m)) ≤ 1) ∧
      (Event.send x (OutMsg.sessionClosed m) ∈ ev ++ (endLoop st l r).2 →
        sockOpen (endLoop st l r).1 x = false) := by
  induction l generalizing st ev with
  | nil =>
    intro x m
    have hx := h x m
    refine ⟨by simpa [endLoop] using hx.1, fun hmem => ?_⟩
    simp only [endLoop, List.append_nil] at hmem
    exact hx.2 hmem
  | cons p rest ih =>
    have hstep : ∀ x m,
        (((ev ++ ((safeSend st p.2 (OutMsg.sessionClosed (some r))).2 ++
            [Event.closeSock p.2])).count (Event.send x (OutMsg.sessionClosed m)) ≤ 1) ∧
          (Event.send x (OutMsg.sessionClosed m) ∈
              ev ++ ((safeSend st p.2 (OutMsg.sessionClosed (some r))).2 ++
                [Event.closeSock p.2]) →
            sockOpen (setInfo (doClose st p.2).1 p.2 none) x = false)) := by
      intro x m
      have hx := h x m
      constructor
      · rw [List.count_append, List.count_append,
          List.count_eq_zero.mpr (show Event.send x (OutMsg.sessionClosed m) ∉
            [Event.closeSock p.2] from by intro hm; simp at hm)]
        by_cases hop : sockOpen st p.2 = true
        · rw [show (safeSend st p.2 (OutMsg.sessionClosed (some r))).2 =
              [Event.send p.2 (OutMsg.sessionClosed (some r))] from by
            unfold safeSend
            rw [if_pos hop]]
          by_cases heq : Event.send x (OutMsg.sessionClosed m) =
              Event.send p.2 (OutMsg.sessionClosed (some r))
          · have hnm : Event.send x (OutMsg.sessionClosed m) ∉ ev := by
              intro hmem
              have hcl2 := hx.2 hmem
              have hxp : x = p.2 := by injection heq
              rw [hxp] at hcl2
              rw [hcl2] at hop
              exact Bool.false_ne_true hop
            rw [List.count_eq_zero.mpr hnm]
            simp [heq]
          · rw [List.count_eq_zero.mpr (show Event.send x (OutMsg.sessionClosed m) ∉
              [Event.send p.2 (OutMsg.sessionClosed (some r))] from by
                intro hm
                simp only [List.mem_singleton] at hm
                exact heq hm)]
            simpa using hx.1
        · rw [show (safeSend st p.2 (OutMsg.sessionClosed (some r))).2 = [] from by
            unfold safeSend
            rw [if_neg hop]]
          simpa using hx.1
      · intro hmem
        rw [sockOpen_setInfo]
        simp only [List.mem_append] at hmem
        rcases hmem with hmem | hmem | hmem
        · by_cases hxp : x = p.2
          · rw [hxp]
            exact sockOpen_doClose_any _ _
          · rw [sockOpen_doClose_other hxp]
            exact hx.2 hmem
        · have := mem_safeSend hmem
          have hxp : x = p.2 := by injection this
          rw [hxp]
          exact sockOpen_doClose_any _ _
        · simp at hmem
    intro x m
    rw [endLoop_cons]
    dsimp only
    have hih := ih (setInfo (doClose st p.2).1 p.2 none)
      (ev ++ ((safeSend st p.2 (OutMsg.sessionClosed (some r))).2 ++ [Event.closeSock p.2]))
      hstep x m
    constructor
    · have hc := hih.1
      rw [List.append_assoc, List.append_assoc] at hc
      rw [List.append_assoc]
      exact hc
    · intro hmem
      apply hih.2
      rw [List.append_assoc, List.append_assoc]
      rw [List.append_assoc] at hmem
      exact hmem

theorem detach_sclosed_inv (st : Srv) (j : Nat) (r : Option String) (sil : Bool)
    (ev : List Event)
    (h : ∀ x m, (ev.count (Event.send x (OutMsg.sessionClosed m)) ≤ 1) ∧
      (Event.send x (OutMsg.sessionClosed m) ∈ ev → sockOpen st x = false)) :
    ∀ x m, ((ev ++ (detachClient st j r sil).2).count
        (Event.send x (OutMsg.sessionClosed m)) ≤ 1) ∧
      (Event.send x (OutMsg.sessionClosed m) ∈ ev ++ (detachClient st j r sil).2 →
        sockOpen (detachClient st j r sil).1 x = false) := by
  cases hinfo : getInfo st j with
  | none =>
    have he : detachClient st j r sil = (st, []) := by
      unfold detachClient
      rw [hinfo]
    rw [he]
    intro x m
    have hx := h x m
    exact ⟨by simpa using hx.1, fun hm => hx.2 (by simpa using hm)⟩
  | some info =>
    have hcl : detachClient st j r sil = detachFinish (detachBody st j r info) j sil := by
      unfold detachClient
      rw [hinfo]
    rw [hcl]
    have hbody : ∀ x m, ((ev ++ (detachBody st j r info).2).count
        (Event.send x (OutMsg.sessionClosed m)) ≤ 1) ∧
        (Event.send x (OutMsg.sessionClosed m) ∈ ev ++ (detachBody st j r info).2 →
          sockOpen (detachBody st j r info).1 x = false) := by
      unfold detachBody
      cases info with
      | dmInfo cj =>
        dsimp only
        cases halo : alookup cj st.sessions with
        | none =>
          intro x m
          have hx := h x m
          exact ⟨by simpa using hx.1, fun hm => hx.2 (by simpa using hm)⟩
        | some sessj =>
          dsimp only
          split
          · unfold endSession
            refine endLoop_sclosed_inv _ _ _ ev (fun x2 m2 => ⟨(h x2 m2).1, fun hm => ?_⟩)
            rw [sockOpen_setSessions]
            exact (h x2 m2).2 hm
          · intro x m
            have hx := h x m
            exact ⟨by simpa using hx.1, fun hm => hx.2 (by simpa using hm)⟩
      | playerInfo cj q0 =>
        dsimp only
        cases halo : alookup cj st.sessions with
        | none =>
          intro x m
          have hx := h x m
          exact ⟨by simpa using hx.1, fun hm => hx.2 (by simpa using hm)⟩
        | some sessj =>
          dsimp only
          split
          · split
            · intro x m
              have hx := h x m
              constructor
              · exact count_append_le_one hx.1 (by
                  intro hm
                  have := mem_safeSend hm
                  simp at this)
              · intro hm
                rw [sockOpen_setSessions]
                simp only [List.mem_append] at hm
                rcases hm with hm | hm
                · exact hx.2 hm
                · exfalso
                  have := mem_safeSend hm
                  simp at this
            · intro x m
              have hx := h x m
              refine ⟨by simpa using hx.1, fun hm => ?_⟩
              rw [sockOpen_setSessions]
              exact hx.2 (by simpa using hm)
          · intro x m
            have hx := h x m
            exact ⟨by simpa using hx.1, fun hm => hx.2 (by simpa using hm)⟩
    unfold detachFinish
    dsimp only
    split
    · intro x m
      have hb := hbody x m
      constructor
      · rw [← List.append_assoc]
        exact count_append_le_one hb.1 (by
          intro hm
          unfold doClose at hm
          simp at hm)
      · intro hm
        by_cases hxj : x = j
        · rw [hxj]
          exact sockOpen_doClose_any _ _
        · rw [sockOpen_doClose_other hxj, sockOpen_setInfo]
          apply hb.2
          simp only [List.mem_append] at hm
          rcases hm with hm | hm | hm
          · exact List.mem_append_left _ hm
          · exact List.mem_append_right _ hm
          · unfold doClose at hm
            simp at hm
    · intro x m
      have hb := hbody x m
      refine ⟨hb.1, fun hm => ?_⟩
      rw [sockOpen_setInfo]
      exact hb.2 hm

theorem tickOne_sclosed_inv (acc : Srv × List Event) (j : Nat)
    (h : ∀ x m, (acc.2.count (Event.send x (OutMsg.sessionClosed m)) ≤ 1) ∧
      (Event.send x (OutMsg.sessionClosed m) ∈ acc.2 → sockOpen acc.1 x = false)) :
    ∀ x m, ((tickOne acc j).2.count (Event.send x (OutMsg.sessionClosed m)) ≤ 1) ∧
      (Event.send x (OutMsg.sessionClosed m) ∈ (tickOne acc j).2 →
        sockOpen (tickOne acc j).1 x = false) := by
  rcases tickOne_cases acc j with ⟨hn, he⟩ | ⟨k2, hg, ha, he⟩ | ⟨k2, hg, ha, he⟩ <;> rw [he]
  · exact h
  · intro x m
    have hx := h x m
    constructor
    · exact count_append_le_one hx.1 (by intro hm; simp at hm)
    · intro hm
      have hm2 : Event.send x (OutMsg.sessionClosed m) ∈ acc.2 := by
        simp only [List.mem_append] at hm
        rcases hm with hm | hm
        · exact hm
        · simp at hm
      exact (sockOpen_clearAlive _ _ _).trans (hx.2 hm2)
  · intro x m
    have hd := detach_sclosed_inv acc.1 j (some "Connection timed out.") true acc.2 h x m
    constructor
    · exact count_append_le_one hd.1 (by intro hm; simp at hm)
    · intro hm
      have hm2 : Event.send x (OutMsg.sessionClosed m) ∈
          acc.2 ++ (detachClient acc.1 j (some "Connection timed out.") true).2 := by
        simp only [List.mem_append] at hm
        rcases hm with (hm | hm) | hm
        · exact List.mem_append_left _ hm
        · exact List.mem_append_right _ hm
        · simp at hm
      by_cases hxj : x = j
      · rw [hxj]
        exact sockOpen_doTerminate_any _ _
      · exact (sockOpen_doTerminate_other hxj).trans (hd.2 hm2)

theorem tickLoop_pres_away (sid : Nat) (I : Srv × List Event → Prop)
    (hstep : ∀ acc j, j ≠ sid → I acc → I (tickOne acc j)) :
    ∀ sids : List Nat, (∀ j ∈ sids, j ≠ sid) →
      ∀ acc : Srv × List Event, I acc → I (tickLoop acc sids) := by
  intro sids
  induction sids with
  | nil => exact fun _ _ h => h
  | cons j rest ih =>
    intro hns acc h
    exact ih (fun q hq => hns q (by simp [hq])) (tickOne acc j)
      (hstep acc j (hns j (by simp)) h)

/-! ## The heartbeat pass over a dead participant -/

theorem detachBody_player_getInfo (st : Srv) (j : Nat) (r : Option String)
    (cj qj : String) (x : Nat) :
    getInfo (detachBody st j r (CInfo.playerInfo cj qj)).1 x = getInfo st x := by
  unfold detachBody
  dsimp only
  cases halo : alookup cj st.sessions with
  | none => rfl
  | some sessj =>
    dsimp only
    split
    · rw [fst_ite_pair, getInfo_setSessions]
    · rfl

/-- After the dead participant's turn, the post-state invariant survives any
further turn, dead or alive: every `pid` entry stays gone, the binding stays
cleared, the channel stays closed, and no further `player-left` notice for
the id can be emitted (a detach only emits one against a registered
entry). -/
theorem ppost_step (pid : String) (sid dmv : Nat) (acc : Srv × List Event) (j : Nat)
    (h : PPost pid sid dmv acc) : PPost pid sid dmv (tickOne acc j) := by
  unfold PPost at h ⊢
  obtain ⟨hGone, hInfo, hOpen, hCt⟩ := h
  refine ⟨?_, tickOne_info_none_pres _ _ _ hInfo, tickOne_open_false_pres _ _ _ hOpen, ?_⟩
  · exact sessionPred_tickOne (fun c2 sess2 => ∀ p ∈ sess2.players, p.1 ≠ pid)
      acc j (fun c sess q hP p hp => hP p (mapDelete_mem hp)) hGone
  · rcases tickOne_cases acc j with ⟨hn, he⟩ | ⟨k2, hg, ha, he⟩ | ⟨k2, hg, ha, he⟩ <;> rw [he]
    · exact hCt
    · exact count_append_le_one hCt (by intro hm; simp at hm)
    · refine count_append_le_one ?_ (by intro hm; simp at hm)
      refine count_append_le_one hCt ?_
      intro hm
      obtain ⟨cj, sessj, hji, halo, hq, hdm⟩ := detach_playerLeft_mem _ _ _ _ _ _ hm
      exact hGone cj sessj halo (pid, j) (alookup_some_mem hq) rfl

/-- Before the dead participant's turn, the pass invariant survives every
other socket's turn.  The only way another turn can clear the participant's
binding is `endSession` over a player entry storing its socket, which the
no-stale-entries hypothesis pins to the `(pid, sid)` entry of `code` — and
that teardown also deletes the session, so every `pid` entry is gone. -/
theorem ppre_step (code pid : String) (sid dmv : Nat) (acc : Srv × List Event) (j : Nat)
    (hj : j ≠ sid) (h : PPre code pid sid dmv acc) : PPre code pid sid dmv (tickOne acc j) := by
  unfold PPre at h ⊢
  obtain ⟨hPU, hSU, hCS, hAl, hSo, hCt, hDisj⟩ := h
  refine ⟨?_, ?_, ?_, tickOne_alive_false_pres _ _ _ hAl,
    (tickOne_isSome _ _ _).trans hSo, ?_, ?_⟩
  · exact sessionPred_tickOne
      (fun c2 sess2 => ∀ p ∈ sess2.players, p.1 = pid → c2 = code ∧ p.2 = sid)
      acc j (fun c sess q hP p hp hpk => hP p (mapDelete_mem hp) hpk) hPU
  · exact sessionPred_tickOne
      (fun c2 sess2 => ∀ p ∈ sess2.players, p.2 = sid → c2 = code ∧ p.1 = pid)
      acc j (fun c sess q hP p hp hpv => hP p (mapDelete_mem hp) hpv) hSU
  · intro sess' h'
    exact sessionPred_tickOne
      (fun c2 sess2 => c2 = code → sess2.code = code ∧ sess2.dm = dmv)
      acc j (fun c sess q hP hc => hP hc)
      (fun c2 sess2 h2 hc => hCS sess2 (by rw [← hc]; exact h2)) code sess' h' rfl
  · rcases tickOne_cases acc j with ⟨hn, he⟩ | ⟨k2, hg, ha, he⟩ | ⟨k2, hg, ha, he⟩ <;> rw [he]
    · exact hCt
    · rw [List.count_append, hCt,
        List.count_eq_zero.mpr (show Event.send dmv (OutMsg.playerLeft pid) ∉
          [Event.ping j] from by intro hm; simp at hm)]
    · have hdet0 : Event.send dmv (OutMsg.playerLeft pid) ∉
          (detachClient acc.1 j (some "Connection timed out.") true).2 := by
        intro hm
        obtain ⟨cj, sessj, hji, halo, hq, hdm⟩ := detach_playerLeft_mem _ _ _ _ _ _ hm
        exact hj (hPU cj sessj halo (pid, j) (alookup_some_mem hq) rfl).2
      rw [List.count_append, List.count_append, hCt,
        List.count_eq_zero.mpr hdet0,
        List.count_eq_zero.mpr (show Event.send dmv (OutMsg.playerLeft pid) ∉
          [Event.terminate j] from by intro hm; simp at hm)]
  · rcases hDisj with hD | ⟨hnone, hGone⟩
    · rcases tickOne_cases acc j with ⟨hn, he⟩ | ⟨k2, hg, ha, he⟩ | ⟨k2, hg, ha, he⟩ <;> rw [he]
      · exact Or.inl hD
      · exact Or.inl ((getInfo_clearAlive _ _ _).trans hD)
      · cases hji : getInfo acc.1 j with
        | none =>
          have hde : detachClient acc.1 j (some "Connection timed out.") true =
              (acc.1, []) := by
            unfold detachClient
            rw [hji]
          rw [hde]
          exact Or.inl ((getInfo_doTerminate _ _ _).trans hD)
        | some infoj =>
          have hdc : detachClient acc.1 j (some "Connection timed out.") true =
              (setInfo (detachBody acc.1 j (some "Connection timed out.") infoj).1 j none,
                (detachBody acc.1 j (some "Connection timed out.") infoj).2) := by
            unfold detachClient
            rw [hji]
            dsimp only
            rw [detachFinish_silent]
          rw [hdc]
          cases infoj with
          | playerInfo cj qj =>
            exact Or.inl ((getInfo_doTerminate _ _ _).trans
              ((getInfo_setInfo_other _ (fun hs => hj hs.symm)).trans
                ((detachBody_player_getInfo _ _ _ _ _ _).trans hD)))
          | dmInfo cj =>
            cases halo : alookup cj acc.1.sessions with
            | none =>
              have hb : detachBody acc.1 j (some "Connection timed out.")
                  (CInfo.dmInfo cj) = (acc.1, []) := by
                unfold detachBody
                dsimp only
                rw [halo]
              rw [hb]
              exact Or.inl ((getInfo_doTerminate _ _ _).trans
                ((getInfo_setInfo_other _ (fun hs => hj hs.symm)).trans hD))
            | some sessj =>
              by_cases hdm : sessj.dm = j
              · have hb : detachBody acc.1 j (some "Connection timed out.")
                    (CInfo.dmInfo cj) = endSession acc.1 sessj "Connection timed out." := by
                  unfold detachBody
                  dsimp only
                  rw [halo]
                  dsimp only
                  rw [if_pos hdm]
                  rfl
                rw [hb]
                by_cases hsid : sid ∈ sessj.players.map Prod.snd
                · obtain ⟨p0, hp0, hp0v⟩ := List.mem_map.mp hsid
                  obtain ⟨hcj, hp0k⟩ := hSU cj sessj halo p0 hp0 hp0v
                  have hsc : sessj.code = code := by
                    rw [hcj] at halo
                    exact (hCS sessj halo).1
                  refine Or.inr ⟨?_, ?_⟩
                  · refine (getInfo_doTerminate _ _ _).trans
                      (getInfo_setInfo_none_pres _ _ _ ?_)
                    unfold endSession
                    exact endLoop_getInfo_mem_none _ _ _ _ ⟨p0, hp0, hp0v⟩
                  · intro c2 sess2 h2 p hp hpk
                    have h2b : alookup c2 (mapDelete acc.1.sessions sessj.code) =
                        some sess2 := by
                      rw [← endSession_sessions acc.1 sessj "Connection timed out."]
                      exact h2
                    rw [alookup_mapDelete] at h2b
                    by_cases hc2 : c2 = sessj.code
                    · rw [if_pos hc2] at h2b
                      exact Option.noConfusion h2b
                    · rw [if_neg hc2] at h2b
                      exact hc2 ((hPU c2 sess2 h2b p hp hpk).1.trans hsc.symm)
                · refine Or.inl ((getInfo_doTerminate _ _ _).trans
                    ((getInfo_setInfo_other _ (fun hs => hj hs.symm)).trans ?_))
                  show getInfo (endSession acc.1 sessj "Connection timed out.").1 sid = _
                  unfold endSession
                  rw [endLoop_getInfo_other _ _ _ _
                    (fun p hp he => hsid (by rw [← he]; exact List.mem_map_of_mem Prod.snd hp)),
                    getInfo_setSessions]
                  exact hD
              · have hb : detachBody acc.1 j (some "Connection timed out.")
                    (CInfo.dmInfo cj) = (acc.1, []) := by
                  unfold detachBody
                  dsimp only
                  rw [halo]
                  dsimp only
                  rw [if_neg hdm]
                rw [hb]
                exact Or.inl ((getInfo_doTerminate _ _ _).trans
                  ((getInfo_setInfo_other _ (fun hs => hj hs.symm)).trans hD))
    · refine Or.inr ⟨tickOne_info_none_pres _ _ _ hnone, ?_⟩
      exact sessionPred_tickOne (fun c2 sess2 => ∀ p ∈ sess2.players, p.1 ≠ pid)
        acc j (fun c sess q hP p hp => hP p (mapDelete_mem hp)) hGone

/-- The dead participant's own turn: the silent timeout detach removes its
entry (or finds the session already gone), clears its binding, and the
terminate closes the channel; at most one `player-left` notice is in the
trace afterwards. -/
theorem ppre_to_ppost (code pid : String) (sid dmv : Nat) (acc : Srv × List Event)
    (h : PPre code pid sid dmv acc) : PPost pid sid dmv (tickOne acc sid) := by
  unfold PPre at h
  unfold PPost
  obtain ⟨hPU, hSU, hCS, hAl, hSo, hCt, hDisj⟩ := h
  rcases tickOne_cases acc sid with ⟨hn, he⟩ | ⟨k2, hg, ha, he⟩ | ⟨k2, hg, ha, he⟩
  · rw [hn] at hSo
    simp at hSo
  · have htr : sockAlive acc.1 sid = true := by
      unfold sockAlive
      rw [hg]
      exact ha
    rw [htr] at hAl
    simp at hAl
  · rw [he]
    have hcount : ((acc.2 ++ (detachClient acc.1 sid (some "Connection timed out.") true).2) ++
        [Event.terminate sid]).count (Event.send dmv (OutMsg.playerLeft pid)) ≤ 1 := by
      refine count_append_le_one ?_ (by intro hm; simp at hm)
      rw [List.count_append, hCt]
      simpa using detach_playerLeft_count acc.1 sid (some "Connection timed out.") true dmv pid
    rcases hDisj with hD | ⟨hnone, hGone⟩
    · have hdc : detachClient acc.1 sid (some "Connection timed out.") true =
          (setInfo (detachBody acc.1 sid (some "Connection timed out.")
            (CInfo.playerInfo code pid)).1 sid none,
            (detachBody acc.1 sid (some "Connection timed out.")
              (CInfo.playerInfo code pid)).2) := by
        unfold detachClient
        rw [hD]
        dsimp only
        rw [detachFinish_silent]
      have hinfo2 : getInfo (doTerminate (detachClient acc.1 sid
          (some "Connection timed out.") true).1 sid).1 sid = none := by
        rw [getInfo_doTerminate, hdc]
        exact getInfo_setInfo_none_self _ _
      refine ⟨?_, hinfo2, sockOpen_doTerminate_any _ _, hcount⟩
      cases halo : alookup code acc.1.sessions with
      | none =>
        have hbody1 : (detachBody acc.1 sid (some "Connection timed out.")
            (CInfo.playerInfo code pid)).1.sessions = acc.1.sessions := by
          unfold detachBody
          dsimp only
          rw [halo]
        intro c2 sess2 h2 p hp hpk
        rw [hdc] at h2
        have h2b : alookup c2 acc.1.sessions = some sess2 := by
          rw [← hbody1]
          exact h2
        have hc2 := (hPU c2 sess2 h2b p hp hpk).1
        rw [hc2, halo] at h2b
        exact Option.noConfusion h2b
      | some sessC =>
        cases hq : alookup pid sessC.players with
        | none =>
          have hbody1 : (detachBody acc.1 sid (some "Connection timed out.")
              (CInfo.playerInfo code pid)).1.sessions = acc.1.sessions := by
            unfold detachBody
            dsimp only
            rw [halo]
            dsimp only
            rw [if_neg (by rw [hq]; simp)]
          intro c2 sess2 h2 p hp hpk
          rw [hdc] at h2
          have h2b : alookup c2 acc.1.sessions = some sess2 := by
            rw [← hbody1]
            exact h2
          have hc2 := (hPU c2 sess2 h2b p hp hpk).1
          rw [hc2, halo] at h2b
          injection h2b with h3
          rw [← h3] at hp
          have hmem : pid ∈ sessC.players.map Prod.fst := by
            rw [← hpk]
            exact List.mem_map_of_mem Prod.fst hp
          exact (alookup_eq_none.mp hq) hmem
        | some v =>
          have hv : v = sid := (hPU code sessC halo (pid, v) (alookup_some_mem hq) rfl).2
          have hbody1 : (detachBody acc.1 sid (some "Connection timed out.")
              (CInfo.playerInfo code pid)).1.sessions =
              mapSet acc.1.sessions code
                { sessC with players := mapDelete sessC.players pid } := by
            unfold detachBody
            dsimp only
            rw [halo]
            dsimp only
            rw [if_pos (by rw [hq, hv]), fst_ite_pair]
          intro c2 sess2 h2 p hp hpk
          rw [hdc] at h2
          have h2b : alookup c2 (mapSet acc.1.sessions code
              { sessC with players := mapDelete sessC.players pid }) = some sess2 := by
            rw [← hbody1]
            exact h2
          by_cases hc2 : c2 = code
          · rw [hc2, alookup_mapSet_self] at h2b
            injection h2b with h3
            rw [← h3] at hp
            exact mapDelete_key_ne hp hpk
          · rw [alookup_mapSet_other _ _ _ _ hc2] at h2b
            exact hc2 (hPU c2 sess2 h2b p hp hpk).1
    · refine ⟨?_, ?_, sockOpen_doTerminate_any _ _, hcount⟩
      · intro c2 sess2 h2
        exact sessionPred_detach (fun c2 sess2 => ∀ p ∈ sess2.players, p.1 ≠ pid)
          acc.1 sid (some "Connection timed out.") true
          (fun c sess q hP p hp => hP p (mapDelete_mem hp)) hGone c2 sess2 h2
      · exact (getInfo_doTerminate _ _ _).trans (detach_info_none_pres _ _ _ _ _ hnone)

/-! ## The heartbeat pass over a dead host -/

/-- A detach of one socket leaves another socket's binding alone, provided
the other socket sits in no session's player entries (so no `endSession`
sweep can null it). -/
theorem detach_getInfo_pres (st : Srv) (j : Nat) (r : Option String) (sil : Bool)
    (x : Nat) (hx : x ≠ j)
    (hvals : ∀ c2 sess2, alookup c2 st.sessions = some sess2 →
      ∀ p ∈ sess2.players, p.2 ≠ x) :
    getInfo (detachClient st j r sil).1 x = getInfo st x := by
  unfold detachClient
  cases hji : getInfo st j with
  | none => rfl
  | some infoj =>
    have hfin : ∀ r1 : Srv × List Event,
        getInfo (detachFinish r1 j sil).1 x = getInfo r1.1 x := by
      intro r1
      unfold detachFinish
      dsimp only
      split
      · rw [getInfo_doClose, getInfo_setInfo_other _ hx]
      · rw [getInfo_setInfo_other _ hx]
    rw [hfin]
    cases infoj with
    | playerInfo cj qj => exact detachBody_player_getInfo _ _ _ _ _ _
    | dmInfo cj =>
      unfold detachBody
      dsimp only
      cases halo : alookup cj st.sessions with
      | none => rfl
      | some sessj =>
        dsimp only
        split
        · show getInfo (endSession st sessj _).1 x = _
          unfold endSession
          rw [endLoop_getInfo_other _ _ _ _ (hvals cj sessj halo), getInfo_setSessions]
        · rfl

theorem hpost_step (code : String) (sid : Nat) (acc : Srv × List Event) (j : Nat)
    (h : HPost code sid acc) : HPost code sid (tickOne acc j) := by
  unfold HPost at h ⊢
  obtain ⟨hAbs, hInfo, hOpen⟩ := h
  exact ⟨tickOne_code_absent _ _ _ hAbs, tickOne_info_none_pres _ _ _ hInfo,
    tickOne_open_false_pres _ _ _ hOpen⟩

/-- Before the dead host's turn, the pass invariant survives every other
socket's turn: nothing rebinds or revives the host, no other socket can end
its session (the `dm` check fails), and player detaches only shrink it. -/
theorem hpre_step (code : String) (sid : Nat) (acc : Srv × List Event) (j : Nat)
    (hj : j ≠ sid) (h : HPre code sid acc) : HPre code sid (tickOne acc j) := by
  unfold HPre at h ⊢
  obtain ⟨hAbs, hAl, hSo, hInfo, hSess⟩ := h
  refine ⟨?_, tickOne_alive_false_pres _ _ _ hAl, (tickOne_isSome _ _ _).trans hSo, ?_, ?_⟩
  · exact sessionPred_tickOne (fun c2 sess2 => ∀ p ∈ sess2.players, p.2 ≠ sid)
      acc j (fun c sess q hP p hp => hP p (mapDelete_mem hp)) hAbs
  · rcases tickOne_cases acc j with ⟨hn, he⟩ | ⟨k2, hg, ha, he⟩ | ⟨k2, hg, ha, he⟩ <;> rw [he]
    · exact hInfo
    · exact (getInfo_clearAlive _ _ _).trans hInfo
    · exact (getInfo_doTerminate _ _ _).trans
        ((detach_getInfo_pres _ _ _ _ _ (fun hs => hj hs.symm) hAbs).trans hInfo)
  · rcases hSess with hnone | ⟨sessX, hx, hdmX, hcodeX⟩
    · exact Or.inl (tickOne_code_absent _ _ _ hnone)
    · rcases tickOne_cases acc j with ⟨hn, he⟩ | ⟨k2, hg, ha, he⟩ | ⟨k2, hg, ha, he⟩ <;> rw [he]
      · exact Or.inr ⟨sessX, hx, hdmX, hcodeX⟩
      · exact Or.inr ⟨sessX, hx, hdmX, hcodeX⟩
      · rcases detach_sessions_cases acc.1 j (some "Connection timed out.") true with
          hse | ⟨cj, sessj, hji2, halo, hdm2, hse⟩ | ⟨cj, sessj, q0, hji2, halo, hq0, hse⟩
        · refine Or.inr ⟨sessX, ?_, hdmX, hcodeX⟩
          show alookup code
            (detachClient acc.1 j (some "Connection timed out.") true).1.sessions = some sessX
          rw [hse]
          exact hx
        · by_cases hc : code = sessj.code
          · refine Or.inl ?_
            show alookup code
              (detachClient acc.1 j (some "Connection timed out.") true).1.sessions = none
            rw [hse, alookup_mapDelete, if_pos hc]
          · refine Or.inr ⟨sessX, ?_, hdmX, hcodeX⟩
            show alookup code
              (detachClient acc.1 j (some "Connection timed out.") true).1.sessions = some sessX
            rw [hse, alookup_mapDelete, if_neg hc]
            exact hx
        · by_cases hc : code = cj
          · have hXj : sessj = sessX := by
              rw [← hc] at halo
              rw [hx] at halo
              injection halo with h3
              exact h3.symm
            refine Or.inr ⟨{ sessj with players := mapDelete sessj.players q0 }, ?_, ?_, ?_⟩
            · show alookup code
                (detachClient acc.1 j (some "Connection timed out.") true).1.sessions = _
              rw [hse, hc, alookup_mapSet_self]
            · show sessj.dm = sid
              rw [hXj]
              exact hdmX
            · show sessj.code = code
              rw [hXj]
              exact hcodeX
          · refine Or.inr ⟨sessX, ?_, hdmX, hcodeX⟩
            show alookup code
              (detachClient acc.1 j (some "Connection timed out.") true).1.sessions = some sessX
            rw [hse, alookup_mapSet_other _ _ _ _ hc]
            exact hx

/-- The dead host's own turn: the silent timeout detach runs `endSession`
(or finds the entry already gone), deleting the session's key, clearing the
binding, and the terminate closes the channel. -/
theorem hpre_to_hpost (code : String) (sid : Nat) (acc : Srv × List Event)
    (h : HPre code sid acc) : HPost code sid (tickOne acc sid) := by
  unfold HPre at h
  unfold HPost
  obtain ⟨hAbs, hAl, hSo, hInfo, hSess⟩ := h
  rcases tickOne_cases acc sid with ⟨hn, he⟩ | ⟨k2, hg, ha, he⟩ | ⟨k2, hg, ha, he⟩
  · rw [hn] at hSo
    simp at hSo
  · have htr : sockAlive acc.1 sid = true := by
      unfold sockAlive
      rw [hg]
      exact ha
    rw [htr] at hAl
    simp at hAl
  · rw [he]
    have hdc : detachClient acc.1 sid (some "Connection timed out.") true =
        (setInfo (detachBody acc.1 sid (some "Connection timed out.")
          (CInfo.dmInfo code)).1 sid none,
          (detachBody acc.1 sid (some "Connection timed out.")
            (CInfo.dmInfo code)).2) := by
      unfold detachClient
      rw [hInfo]
      dsimp only
      rw [detachFinish_silent]
    refine ⟨?_, ?_, sockOpen_doTerminate_any _ _⟩
    · rcases hSess with hnone | ⟨sessX, hx, hdmX, hcodeX⟩
      · show alookup code
          (detachClient acc.1 sid (some "Connection timed out.") true).1.sessions = none
        exact detach_code_absent _ _ _ _ _ hnone
      · have hb : (detachBody acc.1 sid (some "Connection timed out.")
            (CInfo.dmInfo code)).1.sessions = mapDelete acc.1.sessions sessX.code := by
          unfold detachBody
          dsimp only
          rw [hx]
          dsimp only
          rw [if_pos hdmX]
          show (endSession acc.1 sessX _).1.sessions = _
          unfold endSession
          rw [endLoop_sessions]
        show alookup code
          (detachClient acc.1 sid (some "Connection timed out.") true).1.sessions = none
        rw [hdc]
        show alookup code (detachBody acc.1 sid (some "Connection timed out.")
          (CInfo.dmInfo code)).1.sessions = none
        rw [hb, hcodeX, alookup_mapDelete, if_pos rfl]
    · refine (getInfo_doTerminate _ _ _).trans ?_
      rw [hdc]
      exact getInfo_setInfo_none_self _ _

/-! ## The C7 theorems -/

theorem reach_trE1 : Reach trE1 := Reach.step _ _ reach_trA4

theorem reach_trE2 : Reach trE2 := Reach.step _ _ reach_trE1

theorem reach_trE3 : Reach trE3 := Reach.step _ _ reach_trE1

theorem reach_trF1 : Reach trF1 := Reach.step _ _ Reach.init

theorem reach_trF2 : Reach trF2 := Reach.step _ _ reach_trF1

theorem reach_trF3 : Reach trF3 := Reach.step _ _ reach_trF2

theorem reach_trF4 : Reach trF4 := Reach.step _ _ reach_trF3

theorem reach_trF5 : Reach trF5 := Reach.step _ _ reach_trF4

theorem reach_trF6 : Reach trF6 := Reach.step _ _ reach_trF5

theorem reach_trF7 : Reach trF7 := Reach.step _ _ reach_trF6

theorem reach_trF8 : Reach trF8 := Reach.step _ _ reach_trF7

theorem reach_trF9 : Reach trF9 := Reach.step _ _ reach_trF8

theorem reach_trF : Reach trF := Reach.step _ _ reach_trF9

/-- Claim C7 as stated is false on the code: at the reachable state `trF`
socket 1 is open, dead, and registered as participant `c-b-2` of session
`C`, yet the heartbeat tick leaves that entry in the table.  Ending session
`P` earlier in the same pass swept socket 1 through its stale entry there,
clearing its binding, so socket 1's own turn finds `clientInfo` already
null, skips the removal, and only terminates the channel. -/
theorem c7_counterexample : ¬ C7Statement := by
  intro h
  have h1 := (h trF 1 ⟨true, some (CInfo.playerInfo "C" "c-b-2"), false⟩ reach_trF
    (by decide) (by decide) (by decide)).1
  have h2 := h1 "C" "c-b-2" ⟨"C", 2, [("c-b-2", 1)]⟩ (by decide) (by decide) (by decide)
  have h3 := h2 ⟨"C", 2, [("c-b-2", 1)]⟩ (by decide)
  exact absurd h3 (by decide)

/-- Claim C7, amended: at a heartbeat tick every open, dead connection is
handed to the same `detachClient` path as an explicit disconnect (silently,
with the timeout reason) and then terminated, whatever the liveness of the
other sockets.  If it is bound and registered as a participant of `code`
whose socket lingers in no other entry, the tick leaves no `pid` entry under
`code` (the entry is removed, or the whole session died in the same pass),
clears the binding, closes the channel, puts at most one `player-left`
notice for it in the trace, and a later close event finds nothing to tear
down.  If it is bound and registered as the host of `code` and sits in no
player entry, the tick removes the session's key, clears the binding,
closes the channel, sends each remaining peer at most one `session-closed`
notice, and a later close event finds nothing to tear down.  (Dropping the
no-stale-entry hypotheses admits the `trF` counterexample.) -/
theorem c7_amended :
    (∀ (s : Srv) (sid : Nat) (code pid : String) (sess : Session) (k : Sock),
      Reach s → getSock s sid = some k → k.isAlive = false → k.readyOpen = true →
      getInfo s sid = some (CInfo.playerInfo code pid) →
      alookup code s.sessions = some sess → alookup pid sess.players = some sid →
      sess.code = code → SidUnique s code pid sid →
      (∀ sess', alookup code (heartbeatTick s).1.sessions = some sess' →
          alookup pid sess'.players = none) ∧
        getInfo (heartbeatTick s).1 sid = none ∧
        sockOpen (heartbeatTick s).1 sid = false ∧
        (heartbeatTick s).2.count (Event.send sess.dm (OutMsg.playerLeft pid)) ≤ 1 ∧
        detachClient (heartbeatTick s).1 sid (some "Connection timed out.") true =
          ((heartbeatTick s).1, [])) ∧
    ∀ (s : Srv) (sid : Nat) (code : String) (sess : Session) (k : Sock),
      getSock s sid = some k → k.isAlive = false → k.readyOpen = true →
      getInfo s sid = some (CInfo.dmInfo code) →
      alookup code s.sessions = some sess → sess.dm = sid → sess.code = code →
      SidAbsent s sid →
      alookup code (heartbeatTick s).1.sessions = none ∧
        getInfo (heartbeatTick s).1 sid = none ∧
        sockOpen (heartbeatTick s).1 sid = false ∧
        (∀ x m, (heartbeatTick s).2.count (Event.send x (OutMsg.sessionClosed m)) ≤ 1) ∧
        detachClient (heartbeatTick s).1 sid (some "Connection timed out.") true =
          ((heartbeatTick s).1, []) := by
  constructor
  · intro s sid code pid sess k hr hk hdead hopen hinfo hsess hpid hcode hSU
    have hPU : PidUnique s code pid sid := pid_unique_of_reach hr hsess hpid
    have hCS : CodeSess s code sess.dm := by
      intro sess' h'
      rw [hsess] at h'
      injection h' with h2
      rw [← h2]
      exact ⟨hcode, rfl⟩
    have hmem : sid ∈ s.sockets.map Prod.fst := alookup_mem_keys hk
    obtain ⟨K1, K2, hsplit, hK1⟩ := mem_split_first hmem
    have hK1ne : ∀ j ∈ K1, j ≠ sid := fun j hjm he => hK1 (he ▸ hjm)
    have htickeq : heartbeatTick s = tickLoop (tickOne (tickLoop (s, []) K1) sid) K2 := by
      unfold heartbeatTick
      rw [hsplit, tickLoop_append]
      rfl
    have hpre0 : PPre code pid sid sess.dm (s, []) := by
      unfold PPre
      refine ⟨hPU, hSU, hCS, ?_, ?_, rfl, Or.inl hinfo⟩
      · show sockAlive s sid = false
        unfold sockAlive
        rw [hk]
        exact hdead
      · show (getSock s sid).isSome = true
        rw [hk]
        rfl
    have hpost : PPost pid sid sess.dm (heartbeatTick s) := by
      rw [htickeq]
      exact tickLoop_pres (PPost pid sid sess.dm)
        (fun a j a2 => ppost_step pid sid sess.dm a j a2) K2 _
        (ppre_to_ppost code pid sid sess.dm _
          (tickLoop_pres_away sid (PPre code pid sid sess.dm)
            (fun a j hne a2 => ppre_step code pid sid sess.dm a j hne a2) K1 hK1ne
            (s, []) hpre0))
    unfold PPost at hpost
    obtain ⟨hGone, hInfo, hOpen, hCt⟩ := hpost
    refine ⟨?_, hInfo, hOpen, hCt, ?_⟩
    · intro sess' h'
      cases hq : alookup pid sess'.players with
      | none => rfl
      | some v =>
        exact absurd rfl (hGone code sess' h' (pid, v) (alookup_some_mem hq))
    · unfold detachClient
      rw [hInfo]
  · intro s sid code sess k hk hdead hopen hinfo hsess hdm hcode hSA
    have hmem : sid ∈ s.sockets.map Prod.fst := alookup_mem_keys hk
    obtain ⟨K1, K2, hsplit, hK1⟩ := mem_split_first hmem
    have hK1ne : ∀ j ∈ K1, j ≠ sid := fun j hjm he => hK1 (he ▸ hjm)
    have htickeq : heartbeatTick s = tickLoop (tickOne (tickLoop (s, []) K1) sid) K2 := by
      unfold heartbeatTick
      rw [hsplit, tickLoop_append]
      rfl
    have hpre0 : HPre code sid (s, []) := by
      unfold HPre
      refine ⟨hSA, ?_, ?_, hinfo, Or.inr ⟨sess, hsess, hdm, hcode⟩⟩
      · show sockAlive s sid = false
        unfold sockAlive
        rw [hk]
        exact hdead
      · show (getSock s sid).isSome = true
        rw [hk]
        rfl
    have hpost : HPost code sid (heartbeatTick s) := by
      rw [htickeq]
      exact tickLoop_pres (HPost code sid)
        (fun a j a2 => hpost_step code sid a j a2) K2 _
        (hpre_to_hpost code sid _
          (tickLoop_pres_away sid (HPre code sid)
            (fun a j hne a2 => hpre_step code sid a j hne a2) K1 hK1ne (s, []) hpre0))
    unfold HPost at hpost
    obtain ⟨hNone, hInfo, hOpen⟩ := hpost
    have hcl : ∀ x m, ((heartbeatTick s).2.count
        (Event.send x (OutMsg.sessionClosed m)) ≤ 1) := by
      have hinv := tickLoop_pres
        (fun a => ∀ x m, (a.2.count (Event.send x (OutMsg.sessionClosed m)) ≤ 1) ∧
          (Event.send x (OutMsg.sessionClosed m) ∈ a.2 → sockOpen a.1 x = false))
        (fun a j a2 => tickOne_sclosed_inv a j a2) (s.sockets.map Prod.fst) (s, [])
        (fun x m => ⟨by simp, by intro hm; simp at hm⟩)
      exact fun x m => (hinv x m).1
    refine ⟨hNone, hInfo, hOpen, hcl, ?_⟩
    unfold detachClient
    rw [hInfo]

theorem c7_amended_witness :
    ((∀ sess', alookup "ABC" (heartbeatTick trE2).1.sessions = some sess' →
        alookup "c-7-1" sess'.players = none) ∧
      getInfo (heartbeatTick trE2).1 1 = none ∧
      sockOpen (heartbeatTick trE2).1 1 = false ∧
      (heartbeatTick trE2).2.count (Event.send 0 (OutMsg.playerLeft "c-7-1")) ≤ 1 ∧
      detachClient (heartbeatTick trE2).1 1 (some "Connection timed out.") true =
        ((heartbeatTick trE2).1, [])) ∧
    (alookup "ABC" (heartbeatTick trE3).1.sessions = none ∧
      getInfo (heartbeatTick trE3).1 0 = none ∧
      sockOpen (heartbeatTick trE3).1 0 = false ∧
      (∀ x m, (heartbeatTick trE3).2.count (Event.send x (OutMsg.sessionClosed m)) ≤ 1) ∧
      detachClient (heartbeatTick trE3).1 0 (some "Connection timed out.") true =
        ((heartbeatTick trE3).1, [])) :=
  ⟨c7_amended.1 trE2 1 "ABC" "c-7-1" ⟨"ABC", 0, [("c-7-1", 1)]⟩
      ⟨true, some (CInfo.playerInfo "ABC" "c-7-1"), false⟩ reach_trE2
      (by decide) (by decide) (by decide) (by decide) (by decide) (by decide) (by decide)
      (by
        intro c2 sess2 h2 p hp hpv
        rw [show trE2.sessions = [("ABC", (⟨"ABC", 0, [("c-7-1", 1)]⟩ : Session))] from by
          decide] at h2
        obtain ⟨hc, hs⟩ := alookup_singleton h2
        rw [hs] at hp
        simp only [List.mem_singleton] at hp
        exact ⟨hc.symm, by rw [hp]⟩),
    c7_amended.2 trE3 0 "ABC" ⟨"ABC", 0, [("c-7-1", 1)]⟩
      ⟨true, some (CInfo.dmInfo "ABC"), false⟩
      (by decide) (by decide) (by decide) (by decide) (by decide) (by decide) (by decide)
      (by
        intro c2 sess2 h2 p hp
        rw [show trE3.sessions = [("ABC", (⟨"ABC", 0, [("c-7-1", 1)]⟩ : Session))] from by
          decide] at h2
        obtain ⟨hc, hs⟩ := alookup_singleton h2
        rw [hs] at hp
        simp only [List.mem_singleton] at hp
        rw [hp]
        decide)⟩

/-! ## Claim C8 -/

/-- Claim C8: at any reachable state, a successful join returns a
participant id distinct from every participant id currently registered in
any session (the `clientCounter` embedded in each id strictly increases),
and the resulting state again has pairwise-distinct live ids — so an id is
never reused while a registered reference to it exists. -/
theorem c8_join_id_fresh (s : Srv) (sid now : Nat) (cv : JVal) (code pid : String)
    (hr : Reach s)
    (hj : Event.send sid (OutMsg.sessionJoined code pid) ∈
      (handleJoinSession s sid cv now).2) :
    pid ∉ allPlayerIds s ∧
      List.Pairwise TagNe (allPlayerIds (handleJoinSession s sid cv now).1) := by
  have hinv := idInv_reach hr
  refine ⟨?_, (idInv_handleJoin sid cv now hinv).1⟩
  unfold handleJoinSession at hj
  by_cases h1 : normalizeCode cv = ""
  · rw [if_pos h1] at hj
    have he := mem_safeSend hj
    simp at he
  · rw [if_neg h1] at hj
    cases halo : alookup (normalizeCode cv) s.sessions with
    | none =>
      rw [halo] at hj
      dsimp only at hj
      have he := mem_safeSend hj
      simp at he
    | some sess =>
      rw [halo] at hj
      dsimp only at hj
      by_cases h2 : sockOpen s sess.dm = false
      · rw [if_pos h2] at hj
        have he := mem_safeSend hj
        simp at he
      · rw [if_neg h2] at hj
        have hr1shape : ∀ e ∈ (if (getInfo s sid).isSome = true then
            detachClient s sid none true else (s, [])).2,
            (∃ x m, e = Event.send x (OutMsg.sessionClosed m)) ∨
              (∃ x q, e = Event.send x (OutMsg.playerLeft q)) ∨
              ∃ x, e = Event.closeSock x := by
          split
          · exact detach_events_shape s sid none true
          · intro e he
            simp at he
        have hcnt : (if (getInfo s sid).isSome = true then
            detachClient s sid none true else (s, [])).1.clientCounter =
            s.clientCounter := by
          split
          · exact detach_counter s sid none true
          · rfl
        simp only [List.mem_append] at hj
        rcases hj with (hj | hj) | hj
        · rcases hr1shape _ hj with ⟨x, m, he⟩ | ⟨x, q, he⟩ | ⟨x, he⟩ <;> simp at he
        · have he := mem_safeSend hj
          simp at he
          have hpid2 : pid = createClientId now ((if (getInfo s sid).isSome = true then
              detachClient s sid none true else (s, [])).1.clientCounter + 1) := he.2
          intro hmem
          obtain ⟨c, hc1, hc2⟩ := hinv.2 pid hmem
          rw [hpid2, idTag_createClientId, hcnt] at hc1
          have hcc : c = s.clientCounter + 1 := (Option.some_inj.mp hc1).symm
          omega
        · have he := mem_safeSend hj
          simp at he

theorem c8_witness :
    "c-7-1" ∉ allPlayerIds trA3 ∧
      List.Pairwise TagNe (allPlayerIds (handleJoinSession trA3 1 (JVal.vStr "Abc") 7).1) :=
  c8_join_id_fresh trA3 1 7 (JVal.vStr "Abc") "ABC" "c-7-1" reach_trA3 (by decide)

end DmTool
